import Mathlib

/-!
Shallow embedding of the semester-timetable-builder program.

The definitions below are translated from the TypeScript sources:
  * src/components/room-assignment-engine.tsx
  * src/components/timetable-grid.tsx
  * src/components/schedule-builder-modal.tsx
  * src/components/teacher-subject-manager.tsx

Modelling conventions:
  * TypeScript numbers are modelled as Nat (counts, periods, capacities,
    priorities), Int (scores) or Rat (hours, durations, percentages before
    rounding).  All float arithmetic in the sources is on small exact values
    (x/60, x/total, comparisons with 0.8 = 4/5 and 0.5 = 1/2), so exact
    rational arithmetic is a faithful model.
  * JS Maps keyed by template strings such as day + "-" + period are modelled
    by structural comparison of the components; with periods being naturals
    the string key is injective in the components, so the two agree.
  * React state updates become explicit list arguments and results.
  * JS Array.prototype.sort is stable, and the comparators used are total
    preorders, so List.insertionSort (which is stable) is a faithful model.
  * Date.now() / new Date().toISOString() values are passed in as explicit
    string parameters.
-/

/-- Subject record (src/types/timetable.ts). -/
structure Subject where
  id : String
  name : String
  code : String
  color : String
  deriving Repr, DecidableEq

/-- Grade-subject weekly allocation (src/types/timetable.ts). -/
structure GradeSubjectAllocation where
  id : String
  gradeId : String
  subjectId : String
  weeklyHours : ℚ
  semesterWeeks : ℚ
  totalHours : ℚ
  deriving Repr, DecidableEq

/-- Class section record (src/types/timetable.ts). -/
structure ClassSection where
  id : String
  name : String
  gradeId : String
  studentCount : Nat
  deriving Repr, DecidableEq

/-- Teacher record (src/types/timetable.ts). -/
structure Teacher where
  id : String
  name : String
  email : String
  subjects : List String
  weeklyHourLimit : ℚ
  currentWeeklyHours : ℚ
  deriving Repr, DecidableEq

/-- Room record for timetable display (src/types/timetable.ts). -/
structure Room where
  id : String
  name : String
  capacity : Nat
  type : String
  deriving Repr, DecidableEq

/-- Time slot record (src/types/timetable.ts). -/
structure TimeSlot where
  id : String
  day : String
  period : Nat
  startTime : String
  endTime : String
  deriving Repr, DecidableEq

/-- Timetable entry (src/types/timetable.ts); `roomId` is optional there. -/
structure TimetableEntry where
  id : String
  classId : String
  teacherId : String
  subjectId : String
  roomId : Option String := none
  timeSlotId : String
  day : String
  period : Nat
  deriving Repr, DecidableEq

/-- Class-subject-teacher binding (src/types/teacher-assignments.ts). -/
structure ClassSubjectTeacher where
  id : String
  classId : String
  subjectId : String
  teacherId : String
  isActive : Bool
  createdAt : String
  updatedAt : String
  deriving Repr, DecidableEq

/-- Schedule-level conflict (src/types/timetable.ts); `type` is one of
"teacher_double_booking", "room_clash", "teacher_overload",
"subject_hours_exceeded". -/
structure Conflict where
  type : String
  message : String
  severity : String
  affectedEntries : List String
  deriving Repr, DecidableEq

/-- Classroom record (src/types/classroom.ts). -/
structure Classroom where
  id : String
  name : String
  code : String
  roomTypeId : String
  capacity : Nat
  floor : String
  building : String
  features : List String
  equipment : List String
  isActive : Bool
  notes : String
  createdAt : String
  updatedAt : String
  deriving Repr, DecidableEq

/-- Subject to room-type preference (src/types/room-assignment.ts). -/
structure SubjectRoomType where
  id : String
  subjectId : String
  roomTypeId : String
  priority : Nat
  isRequired : Bool
  createdAt : String
  updatedAt : String
  deriving Repr, DecidableEq

/-- Room assignment record (src/types/room-assignment.ts); `conflictStatus`
is one of "none", "warning", "error". -/
structure RoomAssignment where
  id : String
  timetableEntryId : String
  roomId : String
  isAutoAssigned : Bool
  assignedAt : String
  assignedBy : String
  conflictStatus : String
  deriving Repr, DecidableEq

/-- Room suggestion produced by the scorer (src/types/room-assignment.ts). -/
structure RoomSuggestion where
  roomId : String
  roomName : String
  suitabilityScore : Int
  reasons : List String
  warnings : List String
  deriving Repr, DecidableEq

/-- The static data the RoomAssignmentEngine component closes over:
`subjects`, `classSections` (imported from lib/timetable-data),
`subjectRoomTypes` and `classrooms` (component state). -/
structure RoomEngineState where
  subjects : List Subject
  classSections : List ClassSection
  subjectRoomTypes : List SubjectRoomType
  classrooms : List Classroom
  deriving Repr

/-- Comparator used for `subjectRoomPreferences.sort((a, b) => a.priority -
b.priority)`: ascending priority, stable. -/
def prefOrder (a b : SubjectRoomType) : Prop := a.priority ≤ b.priority

instance : DecidableRel prefOrder := fun a b => Nat.decLe a.priority b.priority

instance : IsTotal SubjectRoomType prefOrder := ⟨fun a b => Nat.le_total a.priority b.priority⟩

instance : IsTrans SubjectRoomType prefOrder := ⟨fun _ _ _ h1 h2 => le_trans h1 h2⟩

/-- Comparator used for `suggestions.sort((a, b) => b.suitabilityScore -
a.suitabilityScore)`: descending score, stable. -/
def sugOrder (a b : RoomSuggestion) : Prop := b.suitabilityScore ≤ a.suitabilityScore

instance : DecidableRel sugOrder := fun a b => Int.decLe b.suitabilityScore a.suitabilityScore

instance : IsTotal RoomSuggestion sugOrder := ⟨fun a b => le_total b.suitabilityScore a.suitabilityScore⟩

instance : IsTrans RoomSuggestion sugOrder := ⟨fun _ _ _ h1 h2 => le_trans h2 h1⟩

/-- Scoring of one candidate room for one entry
(room-assignment-engine.tsx lines 78-134).  `prefs` is the already
priority-sorted preference list for the entry's subject, `cls` the entry's
class section.  The capacity branch compares
`capacityRatio = studentCount / capacity` with 0.8 and 0.5; with the branch
guard `studentCount <= capacity` these comparisons are exactly the integer
comparisons `5 * studentCount > 4 * capacity` and
`2 * studentCount > capacity` (when capacity = 0 the guard forces
studentCount = 0, and both sides are false, matching the JS NaN
comparisons), which is how they are written here so that the whole scorer
evaluates by kernel reduction. -/
def scoreRoom (prefs : List SubjectRoomType) (cls : ClassSection) (room : Classroom) :
    RoomSuggestion :=
  let st0 : Int × List String × List String := (0, [], [])
  let st1 : Int × List String × List String :=
    match prefs.find? (fun srt => srt.roomTypeId == room.roomTypeId) with
    | some p =>
        let score := st0.1 + (4 - (p.priority : Int)) * 30
        let reasons := st0.2.1 ++
          [(if p.priority == 1 then "Preferred" else "Suitable") ++ " room type"]
        if p.isRequired then (score + 20, reasons ++ ["Required room type"], st0.2.2)
        else (score, reasons, st0.2.2)
    | none =>
        if 0 < prefs.length then
          (st0.1 - 20, st0.2.1, st0.2.2 ++ ["Not a preferred room type for this subject"])
        else st0
  let st2 : Int × List String × List String :=
    if cls.studentCount ≤ room.capacity then
      if 4 * room.capacity < 5 * cls.studentCount then
        (st1.1 + 15, st1.2.1 ++ ["Good capacity utilization"], st1.2.2)
      else if room.capacity < 2 * cls.studentCount then
        (st1.1 + 10, st1.2.1 ++ ["Adequate capacity"], st1.2.2)
      else
        (st1.1 + 5, st1.2.1, st1.2.2 ++ ["Room may be too large"])
    else
      (st1.1 - 50, st1.2.1,
        st1.2.2 ++ ["Insufficient capacity (" ++ toString room.capacity ++ " < " ++
          toString cls.studentCount ++ ")"])
  let st3 : Int × List String × List String :=
    if ["Projector", "Whiteboard"].all (fun f => room.features.contains f) then
      (st2.1 + 10, st2.2.1 ++ ["Has required features"], st2.2.2)
    else
      (st2.1, st2.2.1, st2.2.2 ++ ["Missing some required features"])
  { roomId := room.id
    roomName := room.name
    suitabilityScore := max 0 st3.1
    reasons := st3.2.1
    warnings := st3.2.2 }

/-- The entry's subject preferences, filtered and priority-sorted
(room-assignment-engine.tsx lines 63-65). -/
def sortedPrefs (st : RoomEngineState) (entry : TimetableEntry) : List SubjectRoomType :=
  List.insertionSort prefOrder
    (st.subjectRoomTypes.filter (fun srt => srt.subjectId == entry.subjectId))

/-- Room ids already occupied at the entry's (day, period) slot, resolved
through the timetable entries (room-assignment-engine.tsx lines 68-73). -/
def occupiedRoomIds (roomAssignments : List RoomAssignment)
    (timetableEntries : List TimetableEntry) (entry : TimetableEntry) : List String :=
  (roomAssignments.filter (fun ra =>
    match timetableEntries.find? (fun te => te.id == ra.timetableEntryId) with
    | some ae => ae.day == entry.day && ae.period == entry.period
    | none => false)).map (fun ra => ra.roomId)

/-- Active rooms not occupied at the entry's slot
(room-assignment-engine.tsx line 75). -/
def availableRooms (st : RoomEngineState) (roomAssignments : List RoomAssignment)
    (timetableEntries : List TimetableEntry) (entry : TimetableEntry) : List Classroom :=
  st.classrooms.filter (fun room =>
    room.isActive && !((occupiedRoomIds roomAssignments timetableEntries entry).contains room.id))

/-- Room suggestion generation for one timetable entry
(room-assignment-engine.tsx lines 55-137, the spec's scoreRoomsForEntry). -/
def generateRoomSuggestions (st : RoomEngineState) (roomAssignments : List RoomAssignment)
    (timetableEntries : List TimetableEntry) (entry : TimetableEntry) : List RoomSuggestion :=
  match st.subjects.find? (fun s => s.id == entry.subjectId),
        st.classSections.find? (fun c => c.id == entry.classId) with
  | some _, some cls =>
      List.insertionSort sugOrder
        ((availableRooms st roomAssignments timetableEntries entry).map
          (scoreRoom (sortedPrefs st entry) cls))
  | _, _ => []

/-- The RoomAssignment record pushed by autoAssignRooms for a winning
suggestion (room-assignment-engine.tsx lines 154-162). -/
def mkAutoAssignment (now : String) (entry : TimetableEntry) (best : RoomSuggestion) :
    RoomAssignment :=
  { id := "auto-" ++ entry.id
    timetableEntryId := entry.id
    roomId := best.roomId
    isAutoAssigned := true
    assignedAt := now
    assignedBy := "system"
    conflictStatus := if 0 < best.warnings.length then "warning" else "none" }

/-- One iteration of the autoAssignRooms forEach loop
(room-assignment-engine.tsx lines 146-164): skip entries that already have an
assignment in the pre-call state, otherwise take the top suggestion (also
computed against the pre-call state) and assign it if its score is
positive. -/
def autoAssignStep (st : RoomEngineState) (timetableEntries : List TimetableEntry)
    (roomAssignments : List RoomAssignment) (now : String) (entry : TimetableEntry) :
    Option RoomAssignment :=
  if roomAssignments.any (fun ra => ra.timetableEntryId == entry.id) then none
  else
    match (generateRoomSuggestions st roomAssignments timetableEntries entry).head? with
    | some best =>
        if 0 < best.suitabilityScore then some (mkAutoAssignment now entry best) else none
    | none => none

/-- Auto-assignment over all entries (room-assignment-engine.tsx lines
142-172).  The forEach loop pushes at most one new assignment per entry into
`newAssignments`, and the updated state is the old assignments followed by
the new ones.  Note that both the skip test and the suggestion generation
read the pre-call `roomAssignments` state. -/
def autoAssignRooms (st : RoomEngineState) (timetableEntries : List TimetableEntry)
    (roomAssignments : List RoomAssignment) (now : String) : List RoomAssignment :=
  roomAssignments ++
    timetableEntries.filterMap (autoAssignStep st timetableEntries roomAssignments now)

/-- Errors surfaced by the manual room assignment dialog. -/
inductive ManualAssignError where
  | noSelection
  | roomOccupied
  deriving Repr, DecidableEq

/-- The occupancy test of saveManualAssignment for one existing assignment
(room-assignment-engine.tsx lines 286-294). -/
def occupiesSlot (timetableEntries : List TimetableEntry) (roomSel : String)
    (selEntry : TimetableEntry) (ra : RoomAssignment) : Bool :=
  match timetableEntries.find? (fun te => te.id == ra.timetableEntryId) with
  | some te => ra.roomId == roomSel && te.day == selEntry.day && te.period == selEntry.period
  | none => false

/-- The manual assignment record (room-assignment-engine.tsx lines 305-313). -/
def mkManualAssignment (now : String) (entry : TimetableEntry) (roomSel : String) :
    RoomAssignment :=
  { id := "manual-" ++ entry.id
    timetableEntryId := entry.id
    roomId := roomSel
    isAutoAssigned := false
    assignedAt := now
    assignedBy := "user"
    conflictStatus := "none" }

/-- Manual room assignment (room-assignment-engine.tsx lines 282-319).
On the error paths the component returns without touching state, so the
caller keeps the unchanged assignment list. -/
def saveManualAssignment (timetableEntries : List TimetableEntry)
    (roomAssignments : List RoomAssignment) (selEntry : Option TimetableEntry)
    (roomSel : String) (now : String) :
    Except ManualAssignError (List RoomAssignment) :=
  match selEntry with
  | none => .error .noSelection
  | some e =>
      if roomSel == "" then .error .noSelection
      else if roomAssignments.any (occupiesSlot timetableEntries roomSel e) then
        .error .roomOccupied
      else
        .ok ((roomAssignments.filter (fun ra => !(ra.timetableEntryId == e.id))) ++
          [mkManualAssignment now e roomSel])

/-- Same-slot test used by the conflict scans; the TS code keys sets by the
string `day + "-" + period`, which for natural-number periods is injective in
(day, period), so structural comparison is equivalent. -/
def slotEq (e1 e2 : TimetableEntry) : Bool :=
  e1.day == e2.day && e1.period == e2.period

/-- The teacher_double_booking conflict record (timetable-grid.tsx lines
172-177); a missing teacher renders as "undefined" in the template string. -/
def mkTeacherDoubleBooking (teachers : List Teacher) (e : TimetableEntry) : Conflict :=
  { type := "teacher_double_booking"
    message := "Teacher " ++
      (match teachers.find? (fun t => t.id == e.teacherId) with
       | some t => t.name
       | none => "undefined") ++
      " is double-booked on " ++ e.day ++ " period " ++ toString e.period
    severity := "error"
    affectedEntries := [e.id] }

/-- The teacher double-booking scan (timetable-grid.tsx lines 162-180).
`seen` holds the already-processed entries; the Map of per-teacher slot sets
contains (teacher, slot) exactly when some earlier entry had that teacher and
slot. -/
def doubleBookingScan (teachers : List Teacher) (seen : List TimetableEntry) :
    List TimetableEntry → List Conflict
  | [] => []
  | e :: rest =>
      (if seen.any (fun e' => e'.teacherId == e.teacherId && slotEq e' e) then
        [mkTeacherDoubleBooking teachers e]
      else []) ++ doubleBookingScan teachers (e :: seen) rest

/-- One step of building the per-teacher hours map (timetable-grid.tsx lines
184-187); the JS Map is modelled as an insertion-ordered association list. -/
def addTeacherHours (m : List (String × ℚ)) (tid : String) (h : ℚ) : List (String × ℚ) :=
  if m.any (fun p => p.1 == tid) then
    m.map (fun p => if p.1 == tid then (p.1, p.2 + h) else p)
  else m ++ [(tid, h)]

/-- The per-teacher hours map: each entry adds `periodDuration / 60` hours to
its teacher's total (timetable-grid.tsx lines 183-187). -/
def teacherHoursMap (dur : ℚ) (entries : List TimetableEntry) : List (String × ℚ) :=
  entries.foldl (fun m e => addTeacherHours m e.teacherId (dur / 60)) []

/-- The teacher_overload conflict record (timetable-grid.tsx lines 192-197).
The TS message formats hours with toFixed(1); the exact rational rendering
used here differs only in the number formatting inside the string. -/
def mkTeacherOverload (t : Teacher) (hours : ℚ) (tEntries : List TimetableEntry) : Conflict :=
  { type := "teacher_overload"
    message := t.name ++ " exceeds weekly limit: " ++ toString hours ++ "/" ++
      toString t.weeklyHourLimit ++ " hours"
    severity := "warning"
    affectedEntries := tEntries.map (fun e => e.id) }

/-- The teacher overload pass (timetable-grid.tsx lines 189-199): one
conflict per map key whose teacher exists and whose hours strictly exceed
the teacher's weekly limit. -/
def overloadPass (teachers : List Teacher) (dur : ℚ) (entries : List TimetableEntry) :
    List Conflict :=
  (teacherHoursMap dur entries).filterMap (fun p =>
    match teachers.find? (fun t => t.id == p.1) with
    | some t =>
        if decide (t.weeklyHourLimit < p.2) then
          some (mkTeacherOverload t p.2 (entries.filter (fun e => e.teacherId == p.1)))
        else none
    | none => none)

/-- The room_clash conflict record (timetable-grid.tsx lines 212-217). -/
def mkRoomClash (rooms : List Room) (rid : String) (e : TimetableEntry) : Conflict :=
  { type := "room_clash"
    message := "Room " ++
      (match rooms.find? (fun r => r.id == rid) with
       | some r => r.name
       | none => "undefined") ++
      " is double-booked on " ++ e.day ++ " period " ++ toString e.period
    severity := "error"
    affectedEntries := [e.id] }

/-- The room clash scan (timetable-grid.tsx lines 202-221); entries whose
`roomId` is absent or the empty string (falsy in JS) are neither checked nor
remembered. -/
def roomClashScan (rooms : List Room) (seen : List TimetableEntry) :
    List TimetableEntry → List Conflict
  | [] => []
  | e :: rest =>
      match e.roomId with
      | some rid =>
          if rid == "" then roomClashScan rooms seen rest
          else
            (if seen.any (fun e' => e'.roomId == some rid && slotEq e' e) then
              [mkRoomClash rooms rid e]
            else []) ++ roomClashScan rooms (e :: seen) rest
      | none => roomClashScan rooms seen rest

/-- Schedule constraint validation (timetable-grid.tsx lines 158-226):
teacher double-booking errors, then teacher overload warnings, then room
clash errors, in that order. -/
def validateConstraints (teachers : List Teacher) (rooms : List Room) (dur : ℚ)
    (entries : List TimetableEntry) : List Conflict :=
  doubleBookingScan teachers [] entries ++ overloadPass teachers dur entries ++
    roomClashScan rooms [] entries

/-- View mode of the timetable grid: "class" or "teacher". -/
inductive ViewMode where
  | classView
  | teacherView
  deriving Repr, DecidableEq

/-- Per-subject scheduling progress record (timetable-grid.tsx lines 65-127):
scheduled and total hours plus the rounded percentage. -/
structure Progress where
  scheduled : ℚ
  total : ℚ
  percentage : Int
  deriving Repr, DecidableEq

/-- JS Math.round: round half toward positive infinity. -/
def jsRound (q : ℚ) : Int := ⌊q + 1 / 2⌋

/-- The static data the timetable grid closes over (subjects, classSections,
teachers from lib/timetable-data). -/
structure GridContext where
  subjects : List Subject
  classSections : List ClassSection
  teachers : List Teacher
  deriving Repr

/-- Subjects offered for the selected entity (timetable-grid.tsx lines
71-83): in class view the subjects allocated to the class's grade, in
teacher view the subjects the teacher is qualified for. -/
def availableSubjects (ctx : GridContext) (alloc : List GradeSubjectAllocation)
    (mode : ViewMode) (entity : String) : List Subject :=
  if entity == "" then []
  else
    match mode with
    | .classView =>
        ctx.subjects.filter (fun subject =>
          match ctx.classSections.find? (fun c => c.id == entity) with
          | some cs => alloc.any (fun a => a.gradeId == cs.gradeId && a.subjectId == subject.id)
          | none => false)
    | .teacherView =>
        ctx.subjects.filter (fun subject =>
          match ctx.teachers.find? (fun t => t.id == entity) with
          | some t => t.subjects.contains subject.id
          | none => false)

/-- Total required weekly hours for a subject (timetable-grid.tsx lines
86-106): the grade allocation in class view, the sum over the teacher's
active class bindings in teacher view. -/
def totalHoursFor (ctx : GridContext) (alloc : List GradeSubjectAllocation)
    (assigns : List ClassSubjectTeacher) (mode : ViewMode) (entity sid : String) : ℚ :=
  match mode with
  | .classView =>
      match ctx.classSections.find? (fun c => c.id == entity) with
      | some cs =>
          ((alloc.find? (fun a => a.gradeId == cs.gradeId && a.subjectId == sid)).map
            (fun a => a.weeklyHours)).getD 0
      | none => 0
  | .teacherView =>
      (assigns.filter (fun a => a.teacherId == entity && a.subjectId == sid && a.isActive)).foldl
        (fun acc a =>
          acc +
            match ctx.classSections.find? (fun c => c.id == a.classId) with
            | some cs =>
                ((alloc.find? (fun al => al.gradeId == cs.gradeId && al.subjectId == sid)).map
                  (fun al => al.weeklyHours)).getD 0
            | none => 0) 0

/-- Entries counted as scheduled for a subject (timetable-grid.tsx lines
109-115). -/
def scheduledEntriesFor (mode : ViewMode) (entity sid : String)
    (entries : List TimetableEntry) : List TimetableEntry :=
  entries.filter (fun e =>
    (match mode with
     | .classView => e.classId == entity
     | .teacherView => e.teacherId == entity) && e.subjectId == sid)

/-- The progress record for one subject (timetable-grid.tsx lines 117-123). -/
def progressFor (ctx : GridContext) (alloc : List GradeSubjectAllocation)
    (assigns : List ClassSubjectTeacher) (mode : ViewMode) (entity : String)
    (entries : List TimetableEntry) (dur : ℚ) (sid : String) : Progress :=
  let total := totalHoursFor ctx alloc assigns mode entity sid
  let scheduled := ((scheduledEntriesFor mode entity sid entries).length : ℚ) * (dur / 60)
  { scheduled := scheduled
    total := total
    percentage := if 0 < total then jsRound (scheduled / total * 100) else 0 }

/-- The subjectProgress record keyed by subject id (timetable-grid.tsx lines
65-127 and schedule-builder-modal.tsx lines 50-106, which is the same
computation with the constant duration 45). -/
def subjectProgress (ctx : GridContext) (alloc : List GradeSubjectAllocation)
    (assigns : List ClassSubjectTeacher) (mode : ViewMode) (entity : String)
    (entries : List TimetableEntry) (dur : ℚ) (sid : String) : Option Progress :=
  if (availableSubjects ctx alloc mode entity).any (fun s => s.id == sid) then
    some (progressFor ctx alloc assigns mode entity entries dur sid)
  else none

/-- The configured days (timetable-grid.tsx line 32). -/
def DAYS : List String := ["Monday", "Tuesday", "Wednesday", "Thursday", "Friday"]

/-- The configured periods (timetable-grid.tsx line 31). -/
def PERIODS : List Nat := [1, 2, 3, 4, 5]

/-- Occupancy test for one grid cell (timetable-grid.tsx lines 141-147). -/
def isOccupiedSlot (mode : ViewMode) (entity : String) (entries : List TimetableEntry)
    (day : String) (period : Nat) : Bool :=
  entries.any (fun e =>
    (match mode with
     | .classView => e.classId == entity
     | .teacherView => e.teacherId == entity) && e.day == day && e.period == period)

/-- Valid click targets for the selected subject (timetable-grid.tsx lines
129-156 and schedule-builder-modal.tsx lines 123-150, the spec's
getValidSlots): empty without a selection, a progress record, or with
percentage at least 100; otherwise all unoccupied grid cells. -/
def validSlots (ctx : GridContext) (alloc : List GradeSubjectAllocation)
    (assigns : List ClassSubjectTeacher) (mode : ViewMode) (entity : String)
    (entries : List TimetableEntry) (dur : ℚ) (selectedSubject : Option String) :
    List (String × Nat) :=
  match selectedSubject with
  | none => []
  | some sid =>
      match subjectProgress ctx alloc assigns mode entity entries dur sid with
      | none => []
      | some pr =>
          if 100 ≤ pr.percentage then []
          else
            DAYS.flatMap (fun day =>
              PERIODS.filterMap (fun period =>
                if isOccupiedSlot mode entity entries day period then none
                else some (day, period)))

/-- Result of a slot click in the timetable grid. -/
inductive SlotClickResult where
  | noSelection
  | fullyScheduled
  | noTeacherAssigned
  | added (newEntry : TimetableEntry)
  deriving Repr, DecidableEq

/-- Teacher resolution for a new entry (timetable-grid.tsx lines 240-248):
the first active binding's teacher in class view (empty string when none),
the selected entity itself in teacher view. -/
def resolveTeacherId (mode : ViewMode) (assigns : List ClassSubjectTeacher)
    (entity sid : String) : String :=
  match mode with
  | .classView =>
      ((assigns.find? (fun a => a.classId == entity && a.subjectId == sid && a.isActive)).map
        (fun a => a.teacherId)).getD ""
  | .teacherView => entity

/-- The new timetable entry built on a successful slot click
(timetable-grid.tsx lines 255-263). -/
def mkNewEntry (mode : ViewMode) (timeSlots : List TimeSlot) (newId sid entity tid : String)
    (day : String) (period : Nat) : TimetableEntry :=
  { id := newId
    classId := match mode with | .classView => entity | .teacherView => ""
    teacherId := tid
    subjectId := sid
    roomId := none
    timeSlotId :=
      ((timeSlots.find? (fun ts => ts.day == day && ts.period == period)).map
        (fun ts => ts.id)).getD ""
    day := day
    period := period }

/-- Slot click handler (timetable-grid.tsx lines 228-269; the modal version
at schedule-builder-modal.tsx lines 152-187 is the same without the
fully-scheduled guard, which its callers enforce through validSlots).  The
second component is the resulting entry list: unchanged on every failure
path, extended by exactly the new entry on success. -/
def handleSlotClick (mode : ViewMode) (assigns : List ClassSubjectTeacher)
    (timeSlots : List TimeSlot) (progressLookup : String → Option Progress)
    (entries : List TimetableEntry) (selectedSubject : Option String) (entity : String)
    (newId : String) (day : String) (period : Nat) :
    SlotClickResult × List TimetableEntry :=
  match selectedSubject with
  | none => (.noSelection, entries)
  | some sid =>
      if entity == "" then (.noSelection, entries)
      else if
          (match progressLookup sid with
           | some pr => decide (100 ≤ pr.percentage)
           | none => false) then
        (.fullyScheduled, entries)
      else
        let tid := resolveTeacherId mode assigns entity sid
        if tid == "" then (.noTeacherAssigned, entries)
        else
          let newEntry := mkNewEntry mode timeSlots newId sid entity tid day period
          (.added newEntry, entries ++ [newEntry])

/-- Adding or reassigning a teacher binding (src/unnamed/part_003 lines
116-155): when an active binding for the (class, subject) pair exists its
teacher is updated in place, otherwise a new active row is appended. -/
def addAssignment (assignments : List ClassSubjectTeacher)
    (selectedClass selectedSubject selectedTeacher newId now : String) :
    List ClassSubjectTeacher :=
  if selectedClass == "" || selectedSubject == "" || selectedTeacher == "" then assignments
  else
    match assignments.find? (fun a =>
        a.classId == selectedClass && a.subjectId == selectedSubject && a.isActive) with
    | some ex =>
        assignments.map (fun a =>
          if a.id == ex.id then { a with teacherId := selectedTeacher, updatedAt := now }
          else a)
    | none =>
        assignments ++
          [{ id := newId
             classId := selectedClass
             subjectId := selectedSubject
             teacherId := selectedTeacher
             isActive := true
             createdAt := now
             updatedAt := now }]

/-- Removing a teacher binding (src/unnamed/part_003 lines 157-165):
soft delete, the row is kept with isActive set to false. -/
def removeAssignment (assignments : List ClassSubjectTeacher)
    (assignmentId now : String) : List ClassSubjectTeacher :=
  assignments.map (fun a =>
    if a.id == assignmentId then { a with isActive := false, updatedAt := now } else a)

/-- An operation on the teaching-assignment table. -/
inductive TeacherAssignOp where
  | add (classId subjectId teacherId newId now : String)
  | remove (assignmentId now : String)
  deriving Repr, DecidableEq

/-- Apply one table operation. -/
def applyOp (assignments : List ClassSubjectTeacher) : TeacherAssignOp →
    List ClassSubjectTeacher
  | .add c s t i n => addAssignment assignments c s t i n
  | .remove i n => removeAssignment assignments i n

/-- Apply a sequence of table operations. -/
def applyOps (assignments : List ClassSubjectTeacher) (ops : List TeacherAssignOp) :
    List ClassSubjectTeacher :=
  ops.foldl applyOp assignments

/-- Number of active rows for a (classId, subjectId) pair. -/
def activeCount (assignments : List ClassSubjectTeacher) (c s : String) : Nat :=
  (assignments.filter (fun a => a.isActive && a.classId == c && a.subjectId == s)).length

/-- The table invariant: at most one active row per (classId, subjectId). -/
def AtMostOneActive (assignments : List ClassSubjectTeacher) : Prop :=
  ∀ c s, activeCount assignments c s ≤ 1

/-- The entries selected by the double-booking scan: an entry is selected
exactly when some earlier entry (the scan state `seen` plus the prefix
already processed) has the same teacher and slot. -/
def dupSelect (seen : List TimetableEntry) : List TimetableEntry → List TimetableEntry
  | [] => []
  | e :: rest =>
      (if seen.any (fun e' => e'.teacherId == e.teacherId && slotEq e' e) then [e] else []) ++
        dupSelect (e :: seen) rest

/-- Room-type component of the suitability score, written from the spec
sentence: (4 − priority) × 30 for a matching preference row, +20 more when
required, −20 when preferences exist but none matches. -/
def specTypeScore (prefs : List SubjectRoomType) (room : Classroom) : Int :=
  match prefs.find? (fun srt => srt.roomTypeId == room.roomTypeId) with
  | some p => (4 - (p.priority : Int)) * 30 + (if p.isRequired then 20 else 0)
  | none => if 0 < prefs.length then -20 else 0

/-- Capacity component of the suitability score, written from the spec
sentence: +15 above 80% fill, +10 above 50%, +5 otherwise, −50 when the room
is too small. -/
def specCapacityScore (cls : ClassSection) (room : Classroom) : Int :=
  if cls.studentCount ≤ room.capacity then
    if decide ((4 : ℚ) / 5 < (cls.studentCount : ℚ) / (room.capacity : ℚ)) then 15
    else if decide ((1 : ℚ) / 2 < (cls.studentCount : ℚ) / (room.capacity : ℚ)) then 10
    else 5
  else -50

/-- Feature component of the suitability score, written from the spec
sentence: +10 when the room has both Projector and Whiteboard. -/
def specFeatureScore (room : Classroom) : Int :=
  if room.features.contains "Projector" && room.features.contains "Whiteboard" then 10 else 0

/-- Total suitability per the spec: the sum of the three components clamped
below at 0. -/
def specSuitability (prefs : List SubjectRoomType) (cls : ClassSection) (room : Classroom) :
    Int :=
  max 0 (specTypeScore prefs room + specCapacityScore cls room + specFeatureScore room)

/-- The exact reason strings produced for a candidate, rule by rule. -/
def specReasons (prefs : List SubjectRoomType) (cls : ClassSection) (room : Classroom) :
    List String :=
  (match prefs.find? (fun srt => srt.roomTypeId == room.roomTypeId) with
   | some p =>
       [(if p.priority == 1 then "Preferred" else "Suitable") ++ " room type"] ++
         (if p.isRequired then ["Required room type"] else [])
   | none => []) ++
  (if cls.studentCount ≤ room.capacity then
    if 4 * room.capacity < 5 * cls.studentCount then
      ["Good capacity utilization"]
    else if room.capacity < 2 * cls.studentCount then
      ["Adequate capacity"]
    else []
  else []) ++
  (if ["Projector", "Whiteboard"].all (fun f => room.features.contains f) then
    ["Has required features"]
  else [])

/-- The exact warning strings produced for a candidate, rule by rule: the
non-preferred room type (−20), the too-large room (+5), the insufficient
capacity (−50) and the missing features (0) cases. -/
def specWarnings (prefs : List SubjectRoomType) (cls : ClassSection) (room : Classroom) :
    List String :=
  (match prefs.find? (fun srt => srt.roomTypeId == room.roomTypeId) with
   | some _ => []
   | none =>
       if 0 < prefs.length then ["Not a preferred room type for this subject"] else []) ++
  (if cls.studentCount ≤ room.capacity then
    if 4 * room.capacity < 5 * cls.studentCount then []
    else if room.capacity < 2 * cls.studentCount then []
    else ["Room may be too large"]
  else
    ["Insufficient capacity (" ++ toString room.capacity ++ " < " ++
      toString cls.studentCount ++ ")"]) ++
  (if ["Projector", "Whiteboard"].all (fun f => room.features.contains f) then []
  else ["Missing some required features"])

/-- Sample subject used by concrete scenarios. -/
def sampleSubject : Subject :=
  { id := "S1", name := "Mathematics", code := "MATH", color := "#3b82f6" }

/-- Sample class section with 10 students. -/
def sampleClass : ClassSection :=
  { id := "CL1", name := "Grade 9A", gradeId := "9", studentCount := 10 }

/-- Sample active room with capacity 12 (83% fill for the sample class) and
no features. -/
def sampleRoomSmall : Classroom :=
  { id := "R1", name := "Room 1", code := "R-1", roomTypeId := "RT1", capacity := 12
    floor := "1", building := "A", features := [], equipment := [], isActive := true
    notes := "", createdAt := "d0", updatedAt := "d0" }

/-- Sample active room with capacity 100 (10% fill for the sample class:
the too-large branch). -/
def sampleRoomLarge : Classroom :=
  { id := "R2", name := "Room 2", code := "R-2", roomTypeId := "RT1", capacity := 100
    floor := "1", building := "A", features := [], equipment := [], isActive := true
    notes := "", createdAt := "d0", updatedAt := "d0" }

/-- Sample entry for the sample class and subject at Monday period 1. -/
def mkSampleEntry (i : String) : TimetableEntry :=
  { id := i, classId := "CL1", teacherId := "T1", subjectId := "S1", roomId := none
    timeSlotId := "TS1", day := "Monday", period := 1 }

/-- Engine state with one subject, one class and a single active room. -/
def sampleEngineState : RoomEngineState :=
  { subjects := [sampleSubject], classSections := [sampleClass]
    subjectRoomTypes := [], classrooms := [sampleRoomSmall] }

/-- Sample teacher with a 20-hour weekly limit. -/
def sampleTeacher : Teacher :=
  { id := "T1", name := "Dr. Sarah Johnson", email := "sarah.johnson@school.edu"
    subjects := ["S1"], weeklyHourLimit := 20, currentWeeklyHours := 0 }

/-- Thirty 45-minute entries for the sample teacher (22.5 hours scheduled):
the overload scenario from the spec. -/
def overloadEntries : List TimetableEntry :=
  (List.range 30).map (fun i =>
    { id := "E" ++ toString i, classId := "CL1", teacherId := "T1", subjectId := "S1"
      roomId := none, timeSlotId := "", day := "Monday", period := i })

/-- Sample teaching-assignment row: class CL1, subject S1 taught by T1. -/
def sampleBinding : ClassSubjectTeacher :=
  { id := "1", classId := "CL1", subjectId := "S1", teacherId := "T1", isActive := true
    createdAt := "d0", updatedAt := "d0" }

/-- Grid context with one subject, one class, one teacher. -/
def sampleGridContext : GridContext :=
  { subjects := [sampleSubject], classSections := [sampleClass], teachers := [sampleTeacher] }

/-- Allocation of 3 weekly hours of the sample subject to grade 9. -/
def sampleAllocation : GradeSubjectAllocation :=
  { id := "A1", gradeId := "9", subjectId := "S1", weeklyHours := 3, semesterWeeks := 15
    totalHours := 45 }

/-- Sample time slot: Monday period 1. -/
def sampleTimeSlot : TimeSlot :=
  { id := "TS1", day := "Monday", period := 1, startTime := "08:00", endTime := "08:45" }

/-- Engine state with one subject, one class and two active rooms. -/
def sampleEngineStateTwoRooms : RoomEngineState :=
  { subjects := [sampleSubject], classSections := [sampleClass]
    subjectRoomTypes := [], classrooms := [sampleRoomSmall, sampleRoomLarge] }

/-- Inserting an element whose key-filter holds puts it in front of the
filtered list, provided every element it is inserted after fails the
filter. -/
theorem filter_orderedInsert_pos {α : Type} (r : α → α → Prop) [DecidableRel r]
    (p : α → Bool) (a : α) (hpa : p a = true) (hcomp : ∀ b, ¬ r a b → p b = false) :
    ∀ l : List α, (l.orderedInsert r a).filter p = a :: l.filter p := by
  intro l
  induction l with
  | nil => simp [List.orderedInsert, hpa]
  | cons b t ih =>
      by_cases hr : r a b
      · simp [List.orderedInsert, if_pos hr, List.filter_cons, hpa]
      · have hpb : p b = false := hcomp b hr
        simp [List.orderedInsert, if_neg hr, List.filter_cons, hpb, ih]

/-- Inserting an element whose key-filter fails leaves the filtered list
unchanged. -/
theorem filter_orderedInsert_neg {α : Type} (r : α → α → Prop) [DecidableRel r]
    (p : α → Bool) (a : α) (hpa : p a = false) :
    ∀ l : List α, (l.orderedInsert r a).filter p = l.filter p := by
  intro l
  induction l with
  | nil => simp [List.orderedInsert, hpa]
  | cons b t ih =>
      by_cases hr : r a b
      · simp [List.orderedInsert, if_pos hr, List.filter_cons, hpa]
      · cases hpb : p b <;>
          simp [List.orderedInsert, if_neg hr, List.filter_cons, hpb, ih, hpa]

/-- Stability of insertion sort: filtering by any key class commutes with
sorting, whenever the sort relation cannot strictly separate two elements of
the same key class. -/
theorem filter_insertionSort {α : Type} (r : α → α → Prop) [DecidableRel r]
    (p : α → Bool) (hcomp : ∀ a b, p a = true → ¬ r a b → p b = false) :
    ∀ l : List α, (l.insertionSort r).filter p = l.filter p := by
  intro l
  induction l with
  | nil => rfl
  | cons a t ih =>
      show ((t.insertionSort r).orderedInsert r a).filter p = (a :: t).filter p
      by_cases hpa : p a = true
      · rw [filter_orderedInsert_pos r p a hpa (fun b => hcomp a b hpa), ih,
          List.filter_cons, if_pos hpa]
      · have hpa' : p a = false := by simpa using hpa
        rw [filter_orderedInsert_neg r p a hpa', ih, List.filter_cons, if_neg hpa]

/-- Every conflict produced by the double-booking scan has type
teacher_double_booking. -/
theorem doubleBookingScan_type (teachers : List Teacher) :
    ∀ (l seen : List TimetableEntry) (c : Conflict),
      c ∈ doubleBookingScan teachers seen l → c.type = "teacher_double_booking" := by
  intro l
  induction l with
  | nil => intro seen c hc; simp [doubleBookingScan] at hc
  | cons e r ih =>
      intro seen c hc
      rw [doubleBookingScan, List.mem_append] at hc
      rcases hc with hc | hc
      · by_cases hb : seen.any (fun e' => e'.teacherId == e.teacherId && slotEq e' e) = true
        · rw [if_pos hb, List.mem_singleton] at hc
          subst hc; rfl
        · rw [if_neg hb] at hc
          simp at hc
      · exact ih (e :: seen) c hc

/-- Every conflict produced by the overload pass has type teacher_overload. -/
theorem overloadPass_type (teachers : List Teacher) (dur : ℚ)
    (entries : List TimetableEntry) (c : Conflict) :
    c ∈ overloadPass teachers dur entries → c.type = "teacher_overload" := by
  intro hc
  rw [overloadPass, List.mem_filterMap] at hc
  obtain ⟨q, _, hq⟩ := hc
  split at hq
  · split at hq
    · cases hq; rfl
    · simp at hq
  · simp at hq

/-- Every conflict produced by the room clash scan has type room_clash. -/
theorem roomClashScan_type (rooms : List Room) :
    ∀ (l seen : List TimetableEntry) (c : Conflict),
      c ∈ roomClashScan rooms seen l → c.type = "room_clash" := by
  intro l
  induction l with
  | nil => intro seen c hc; simp [roomClashScan] at hc
  | cons e r ih =>
      intro seen c hc
      rw [roomClashScan] at hc
      split at hc
      · split at hc
        · exact ih seen c hc
        · rw [List.mem_append] at hc
          rcases hc with hc | hc
          · split at hc
            · rw [List.mem_singleton] at hc
              subst hc; rfl
            · simp at hc
          · exact ih (e :: seen) c hc
      · exact ih seen c hc

/-- The double-booking scan is the image of the selected duplicate entries
under the conflict constructor. -/
theorem doubleBookingScan_eq_map (teachers : List Teacher) :
    ∀ (l seen : List TimetableEntry),
      doubleBookingScan teachers seen l
        = (dupSelect seen l).map (mkTeacherDoubleBooking teachers) := by
  intro l
  induction l with
  | nil => intro seen; rfl
  | cons e r ih =>
      intro seen
      rw [doubleBookingScan, dupSelect, List.map_append, ih]
      congr 1
      by_cases hb : seen.any (fun e' => e'.teacherId == e.teacherId && slotEq e' e) = true
      · rw [if_pos hb, if_pos hb]; rfl
      · rw [if_neg hb, if_neg hb]; rfl

/-- Selected duplicates come from the scanned list. -/
theorem dupSelect_subset :
    ∀ (l seen : List TimetableEntry) (e : TimetableEntry), e ∈ dupSelect seen l → e ∈ l := by
  intro l
  induction l with
  | nil => intro seen e he; simp [dupSelect] at he
  | cons a r ih =>
      intro seen e he
      rw [dupSelect, List.mem_append] at he
      rcases he with he | he
      · by_cases hb : seen.any (fun e' => e'.teacherId == a.teacherId && slotEq e' a) = true
        · rw [if_pos hb, List.mem_singleton] at he
          rw [he]; exact List.mem_cons_self a r
        · rw [if_neg hb] at he; simp at he
      · exact List.mem_cons_of_mem a (ih (a :: seen) e he)

/-- Filtering the selected duplicates down to one (teacher, day, period) key
drops exactly the first key occurrence, unless the scan state already
contains the key. -/
theorem dupSelect_filter_key (tid d : String) (p : Nat) :
    ∀ (l seen : List TimetableEntry),
      (dupSelect seen l).filter (fun e => e.teacherId == tid && (e.day == d && e.period == p))
        = if seen.any (fun e => e.teacherId == tid && (e.day == d && e.period == p)) then
            l.filter (fun e => e.teacherId == tid && (e.day == d && e.period == p))
          else
            (l.filter (fun e => e.teacherId == tid && (e.day == d && e.period == p))).drop 1 := by
  intro l
  induction l with
  | nil =>
      intro seen
      cases hb : seen.any (fun e => e.teacherId == tid && (e.day == d && e.period == p)) <;>
        simp [dupSelect, hb]
  | cons e r ih =>
      intro seen
      by_cases hk : (e.teacherId == tid && (e.day == d && e.period == p)) = true
      · simp only [Bool.and_eq_true, beq_iff_eq] at hk
        obtain ⟨h1, h2, h3⟩ := hk
        subst h1; subst h2; subst h3
        have hpred :
            (fun e' => e'.teacherId == e.teacherId && slotEq e' e)
              = fun e' => e'.teacherId == e.teacherId &&
                  (e'.day == e.day && e'.period == e.period) := by
          funext e'; rw [slotEq]
        rw [dupSelect, hpred]
        by_cases hb :
            seen.any (fun e' => e'.teacherId == e.teacherId &&
              (e'.day == e.day && e'.period == e.period)) = true
        · rw [if_pos hb, if_pos hb]
          rw [List.filter_append, ih (e :: seen)]
          have hb' : (e :: seen).any (fun e' => e'.teacherId == e.teacherId &&
              (e'.day == e.day && e'.period == e.period)) = true := by
            rw [List.any_cons]; simp
          rw [if_pos hb']
          simp [List.filter_cons]
        · rw [if_neg hb, if_neg hb]
          rw [List.filter_append, ih (e :: seen)]
          have hb' : (e :: seen).any (fun e' => e'.teacherId == e.teacherId &&
              (e'.day == e.day && e'.period == e.period)) = true := by
            rw [List.any_cons]; simp
          rw [if_pos hb']
          simp [List.filter_cons]
      · have hk' : (e.teacherId == tid && (e.day == d && e.period == p)) = false := by
          simpa using hk
        rw [dupSelect, List.filter_append, ih (e :: seen)]
        have hseen : (e :: seen).any (fun e' => e'.teacherId == tid &&
            (e'.day == d && e'.period == p))
            = seen.any (fun e' => e'.teacherId == tid && (e'.day == d && e'.period == p)) := by
          rw [List.any_cons, hk', Bool.false_or]
        rw [hseen]
        have hleft :
            (if seen.any (fun e' => e'.teacherId == e.teacherId && slotEq e' e) = true then
                [e] else []).filter
              (fun e' => e'.teacherId == tid && (e'.day == d && e'.period == p)) = [] := by
          by_cases hb : seen.any (fun e' => e'.teacherId == e.teacherId && slotEq e' e) = true <;>
            simp [hb, List.filter_cons, hk']
        rw [hleft, List.nil_append]
        cases hb : seen.any (fun e' => e'.teacherId == tid && (e'.day == d && e'.period == p)) <;>
          simp [List.filter_cons, hk']

/-- C2: for every teacher and (day, period) slot at which that teacher has
m entries, validateConstraints emits exactly m − 1 teacher_double_booking
conflicts for that slot — one per entry beyond the first in input order,
each of severity error and listing only that offending entry's id. -/
theorem validateConstraints_double_booking_per_entry
    (teachers : List Teacher) (rooms : List Room) (dur : ℚ)
    (entries : List TimetableEntry) (tid d : String) (p : Nat)
    (hnd : (entries.map TimetableEntry.id).Nodup) :
    (validateConstraints teachers rooms dur entries).filter
        (fun c => c.type == "teacher_double_booking" &&
          c.affectedEntries.any (fun i =>
            ((entries.filter
                (fun e => e.teacherId == tid && (e.day == d && e.period == p))).map
              TimetableEntry.id).contains i))
      = ((entries.filter
            (fun e => e.teacherId == tid && (e.day == d && e.period == p))).drop 1).map
          (mkTeacherDoubleBooking teachers) ∧
    ((validateConstraints teachers rooms dur entries).filter
        (fun c => c.type == "teacher_double_booking" &&
          c.affectedEntries.any (fun i =>
            ((entries.filter
                (fun e => e.teacherId == tid && (e.day == d && e.period == p))).map
              TimetableEntry.id).contains i))).length
      = (entries.filter
          (fun e => e.teacherId == tid && (e.day == d && e.period == p))).length - 1 := by
  have hbridge : ∀ e ∈ entries,
      (((entries.filter
          (fun e' => e'.teacherId == tid && (e'.day == d && e'.period == p))).map
        TimetableEntry.id).contains e.id)
        = (e.teacherId == tid && (e.day == d && e.period == p)) := by
    intro e he
    by_cases hk : (e.teacherId == tid && (e.day == d && e.period == p)) = true
    · rw [hk]
      have hmem : e.id ∈ (entries.filter
          (fun e' => e'.teacherId == tid && (e'.day == d && e'.period == p))).map
            TimetableEntry.id :=
        List.mem_map_of_mem _ (List.mem_filter.mpr ⟨he, hk⟩)
      simpa using hmem
    · have hk' : (e.teacherId == tid && (e.day == d && e.period == p)) = false := by
        simpa using hk
      rw [hk']
      by_contra hcon
      have hex : ∃ x ∈ entries, x.teacherId = tid ∧ x.day = d ∧ x.period = p ∧ x.id = e.id := by
        simpa using hcon
      obtain ⟨e', he', ht1, ht2, ht3, hid⟩ := hex
      have heq : e' = e := List.inj_on_of_nodup_map hnd he' he hid
      rw [heq] at ht1 ht2 ht3
      simp [ht1, ht2, ht3] at hk'
  have hmain :
      (validateConstraints teachers rooms dur entries).filter
        (fun c => c.type == "teacher_double_booking" &&
          c.affectedEntries.any (fun i =>
            ((entries.filter
                (fun e => e.teacherId == tid && (e.day == d && e.period == p))).map
              TimetableEntry.id).contains i))
      = ((entries.filter
            (fun e => e.teacherId == tid && (e.day == d && e.period == p))).drop 1).map
          (mkTeacherDoubleBooking teachers) := by
    rw [validateConstraints, List.filter_append, List.filter_append]
    have hov : (overloadPass teachers dur entries).filter
        (fun c => c.type == "teacher_double_booking" &&
          c.affectedEntries.any (fun i =>
            ((entries.filter
                (fun e => e.teacherId == tid && (e.day == d && e.period == p))).map
              TimetableEntry.id).contains i)) = [] := by
      refine List.filter_eq_nil_iff.mpr (fun c hc => ?_)
      have ht := overloadPass_type teachers dur entries c hc
      simp [ht]
    have hrc : (roomClashScan rooms [] entries).filter
        (fun c => c.type == "teacher_double_booking" &&
          c.affectedEntries.any (fun i =>
            ((entries.filter
                (fun e => e.teacherId == tid && (e.day == d && e.period == p))).map
              TimetableEntry.id).contains i)) = [] := by
      refine List.filter_eq_nil_iff.mpr (fun c hc => ?_)
      have ht := roomClashScan_type rooms entries [] c hc
      simp [ht]
    rw [hov, hrc, List.append_nil, List.append_nil]
    rw [doubleBookingScan_eq_map, List.filter_map]
    have hcong : (dupSelect [] entries).filter
        ((fun c => c.type == "teacher_double_booking" &&
          c.affectedEntries.any (fun i =>
            ((entries.filter
                (fun e => e.teacherId == tid && (e.day == d && e.period == p))).map
              TimetableEntry.id).contains i)) ∘ mkTeacherDoubleBooking teachers)
        = (dupSelect [] entries).filter
            (fun e => e.teacherId == tid && (e.day == d && e.period == p)) := by
      refine List.filter_congr (fun e he => ?_)
      have he' : e ∈ entries := dupSelect_subset entries [] e he
      have hb := hbridge e he'
      simp only [Function.comp, mkTeacherDoubleBooking, List.any_cons, List.any_nil,
        Bool.or_false]
      rw [hb]
      simp
    rw [hcong, dupSelect_filter_key tid d p entries []]
    simp
  refine ⟨hmain, ?_⟩
  rw [hmain, List.length_map, List.length_drop]

/-- Witness for C2: two entries of the same teacher at Monday period 1
produce exactly one teacher_double_booking conflict, for the second entry. -/
theorem validateConstraints_double_booking_per_entry_witness :
    ([mkSampleEntry "E1", mkSampleEntry "E2"].map TimetableEntry.id).Nodup ∧
    (validateConstraints [sampleTeacher] [] 45
        [mkSampleEntry "E1", mkSampleEntry "E2"]).filter
        (fun c => c.type == "teacher_double_booking" &&
          c.affectedEntries.any (fun i =>
            (([mkSampleEntry "E1", mkSampleEntry "E2"].filter
                (fun e => e.teacherId == "T1" && (e.day == "Monday" && e.period == 1))).map
              TimetableEntry.id).contains i))
      = (([mkSampleEntry "E1", mkSampleEntry "E2"].filter
            (fun e => e.teacherId == "T1" && (e.day == "Monday" && e.period == 1))).drop 1).map
          (mkTeacherDoubleBooking [sampleTeacher]) :=
  ⟨by decide,
    (validateConstraints_double_booking_per_entry [sampleTeacher] [] 45
      [mkSampleEntry "E1", mkSampleEntry "E2"] "T1" "Monday" 1 (by decide)).1⟩

/-- Adding hours for a non-matching head leaves the head untouched. -/
theorem addTeacherHours_cons_ne (q : String × ℚ) (m : List (String × ℚ)) (tid : String)
    (h : ℚ) (hq : (q.1 == tid) = false) :
    addTeacherHours (q :: m) tid h = q :: addTeacherHours m tid h := by
  have hqn : q.1 ≠ tid := by simpa using hq
  rw [addTeacherHours, addTeacherHours, List.any_cons, hq, Bool.false_or]
  cases ha : m.any (fun p => p.1 == tid)
  · simp [ha]
  · simp [ha, hqn]

/-- Looking up the touched key after adding hours. -/
theorem addTeacherHours_find_same (m : List (String × ℚ)) (tid : String) (h : ℚ) :
    (addTeacherHours m tid h).find? (fun p => p.1 == tid)
      = match m.find? (fun p => p.1 == tid) with
        | some q => some (q.1, q.2 + h)
        | none => some (tid, h) := by
  induction m with
  | nil => simp [addTeacherHours]
  | cons q m ih =>
      by_cases hq : (q.1 == tid) = true
      · have hqe : q.1 = tid := by simpa using hq
        have hany : (q :: m).any (fun p => p.1 == tid) = true := by
          simp [List.any_cons, hq]
        simp [addTeacherHours, hany, List.find?_cons, hq, hqe]
      · have hq' : (q.1 == tid) = false := by simpa using hq
        rw [addTeacherHours_cons_ne q m tid h hq']
        simp [List.find?_cons, hq', ih]

/-- Updating one key of the map leaves lookups of other keys unchanged. -/
theorem find?_map_update (m : List (String × ℚ)) (tid tid' : String) (h : ℚ)
    (hne : (tid == tid') = false) :
    (m.map (fun p => if p.1 == tid then (p.1, p.2 + h) else p)).find? (fun p => p.1 == tid')
      = m.find? (fun p => p.1 == tid') := by
  induction m with
  | nil => rfl
  | cons q m ih =>
      by_cases hq : (q.1 == tid) = true
      · have hqe : q.1 = tid := by simpa using hq
        simp only [List.map_cons, List.find?_cons] at ih ⊢
        simp [hqe, hne] at ih ⊢
        exact ih
      · have hq0 : q.1 ≠ tid := by simpa using hq
        simp only [List.map_cons, List.find?_cons] at ih ⊢
        cases hq' : (q.1 == tid') <;> simp [hq0, hq'] at ih ⊢ <;> exact ih

/-- Adding hours for one key leaves lookups of other keys unchanged. -/
theorem addTeacherHours_find_ne (m : List (String × ℚ)) (tid tid' : String) (h : ℚ)
    (hne : (tid == tid') = false) :
    (addTeacherHours m tid h).find? (fun p => p.1 == tid')
      = m.find? (fun p => p.1 == tid') := by
  rw [addTeacherHours]
  cases ha : m.any (fun p => p.1 == tid)
  · simp only [ha, Bool.false_eq_true, if_false]
    rw [List.find?_append]
    have h2 : [(tid, h)].find? (fun p => p.1 == tid') = none := by
      simp [List.find?_cons, hne]
    rw [h2]
    cases hm : m.find? (fun p => p.1 == tid') <;> simp
  · simp only [ha, if_true]
    exact find?_map_update m tid tid' h hne

/-- The keys of the hours map after one addition. -/
theorem addTeacherHours_keys (m : List (String × ℚ)) (tid : String) (h : ℚ) :
    (addTeacherHours m tid h).map Prod.fst
      = if m.any (fun p => p.1 == tid) then m.map Prod.fst else m.map Prod.fst ++ [tid] := by
  rw [addTeacherHours]
  cases ha : m.any (fun p => p.1 == tid)
  · simp [ha]
  · simp [ha]
    intro a b _
    by_cases hab : a = tid <;> simp [hab]

/-- The hours map has pairwise distinct keys. -/
theorem teacherHoursFold_keys_nodup (dur : ℚ) :
    ∀ (l : List TimetableEntry) (m : List (String × ℚ)),
      (m.map Prod.fst).Nodup →
      (((l.foldl (fun acc e => addTeacherHours acc e.teacherId (dur / 60)) m)).map
        Prod.fst).Nodup := by
  intro l
  induction l with
  | nil => intro m hm; exact hm
  | cons e r ih =>
      intro m hm
      rw [List.foldl_cons]
      apply ih
      rw [addTeacherHours_keys]
      cases ha : m.any (fun p => p.1 == e.teacherId)
      · simp only [Bool.false_eq_true, if_false]
        have hnm : e.teacherId ∉ m.map Prod.fst := by
          intro hmem
          rw [List.mem_map] at hmem
          obtain ⟨p, hp, hfst⟩ := hmem
          have h2 : ∀ (a : String) (b : ℚ), (a, b) ∈ m → ¬ a = e.teacherId := by
            simpa using ha
          exact h2 p.1 p.2 (by simpa using hp) hfst
        simp [List.nodup_append, hm, hnm]
      · simp [hm]

/-- Lookup characterization of the hours map built by the fold: the value
for a teacher is the number of that teacher's entries times the per-entry
hours. -/
theorem teacherHoursFold_find (dur : ℚ) (tid : String) :
    ∀ (l : List TimetableEntry) (m : List (String × ℚ)),
      ((l.foldl (fun acc e => addTeacherHours acc e.teacherId (dur / 60)) m).find?
          (fun p => p.1 == tid))
        = match m.find? (fun p => p.1 == tid) with
          | some q => some (q.1, q.2 +
              ((l.filter (fun e => e.teacherId == tid)).length : ℚ) * (dur / 60))
          | none =>
              if l.any (fun e => e.teacherId == tid) then
                some (tid, ((l.filter (fun e => e.teacherId == tid)).length : ℚ) * (dur / 60))
              else none := by
  intro l
  induction l with
  | nil =>
      intro m
      cases hm : m.find? (fun p => p.1 == tid) <;> simp [hm]
  | cons e r ih =>
      intro m
      rw [List.foldl_cons]
      by_cases he : (e.teacherId == tid) = true
      · have hee : e.teacherId = tid := by simpa using he
        subst hee
        rw [ih, addTeacherHours_find_same]
        cases hm : m.find? (fun p => p.1 == e.teacherId) <;>
          · simp only [hm, List.filter_cons, List.any_cons, he, if_true, Bool.true_or,
              List.length_cons]
            congr 1
            push_cast
            ring_nf
      · have he' : (e.teacherId == tid) = false := by simpa using he
        rw [ih, addTeacherHours_find_ne m e.teacherId tid (dur / 60) he']
        cases hm : m.find? (fun p => p.1 == tid) <;>
          simp [hm, List.filter_cons, List.any_cons, he']

/-- Filtering the image of a filterMap in which at most one source element
can produce a conflict passing the filter: only the (unique) element matched
by `k` contributes. -/
theorem filterMap_filter_unique {α β : Type} (g : α → Option β) (P : β → Bool) (k : α → Bool)
    (hPk : ∀ a, k a = false → ∀ c, g a = some c → P c = false) :
    ∀ L : List α, L.countP k ≤ 1 →
      (L.filterMap g).filter P
        = match L.find? k with
          | some a => ((g a).toList).filter P
          | none => [] := by
  intro L
  induction L with
  | nil => intro _; rfl
  | cons a L' ih =>
      intro hcount
      rw [List.filterMap_cons]
      by_cases hk : k a = true
      · have hall : ∀ b ∈ L', k b = false := by
          rw [List.countP_cons, hk] at hcount
          simp at hcount
          intro b hb
          simpa using hcount b hb
        have hrest : (L'.filterMap g).filter P = [] := by
          refine List.filter_eq_nil_iff.mpr (fun c hc => ?_)
          rw [List.mem_filterMap] at hc
          obtain ⟨b, hb, hgb⟩ := hc
          simp [hPk b (hall b hb) c hgb]
        cases hg : g a
        · simp [hg, List.find?_cons, hk, hrest]
        · rename_i c
          rw [List.find?_cons, hk]
          cases hPc : P c <;> simp [hg, List.filter_cons, hPc, hrest]
      · have hk' : k a = false := by simpa using hk
        have hcount' : L'.countP k ≤ 1 := by
          rw [List.countP_cons] at hcount
          omega
        cases hg : g a
        · rw [List.find?_cons, hk']
          simpa [hg] using ih hcount'
        · rename_i c
          have hPc := hPk a hk' c hg
          rw [List.find?_cons, hk']
          simpa [hg, List.filter_cons, hPc] using ih hcount'

/-- C3: validateConstraints emits a teacher_overload conflict for a teacher
if and only if the teacher's total scheduled hours (entry count x period
duration in hours) strictly exceed the weekly limit, and then exactly one
such conflict, of severity warning, listing the ids of all of that teacher's
entries. -/
theorem validateConstraints_overload_unique
    (teachers : List Teacher) (rooms : List Room) (dur : ℚ)
    (entries : List TimetableEntry) (t : Teacher)
    (ht : teachers.find? (fun x => x.id == t.id) = some t)
    (hnd : (entries.map TimetableEntry.id).Nodup)
    (hlim : 0 ≤ t.weeklyHourLimit) :
    (validateConstraints teachers rooms dur entries).filter
        (fun c => c.type == "teacher_overload" &&
          c.affectedEntries.any (fun i =>
            ((entries.filter (fun e => e.teacherId == t.id)).map
              TimetableEntry.id).contains i))
      = if t.weeklyHourLimit <
            ((entries.filter (fun e => e.teacherId == t.id)).length : ℚ) * (dur / 60) then
          [mkTeacherOverload t
            (((entries.filter (fun e => e.teacherId == t.id)).length : ℚ) * (dur / 60))
            (entries.filter (fun e => e.teacherId == t.id))]
        else [] := by
  rw [validateConstraints, List.filter_append, List.filter_append]
  have hdb : (doubleBookingScan teachers [] entries).filter
      (fun c => c.type == "teacher_overload" &&
        c.affectedEntries.any (fun i =>
          ((entries.filter (fun e => e.teacherId == t.id)).map
            TimetableEntry.id).contains i)) = [] := by
    refine List.filter_eq_nil_iff.mpr (fun c hc => ?_)
    have h2 := doubleBookingScan_type teachers entries [] c hc
    simp [h2]
  have hrc : (roomClashScan rooms [] entries).filter
      (fun c => c.type == "teacher_overload" &&
        c.affectedEntries.any (fun i =>
          ((entries.filter (fun e => e.teacherId == t.id)).map
            TimetableEntry.id).contains i)) = [] := by
    refine List.filter_eq_nil_iff.mpr (fun c hc => ?_)
    have h2 := roomClashScan_type rooms entries [] c hc
    simp [h2]
  rw [hdb, hrc, List.nil_append, List.append_nil]
  rw [overloadPass]
  have hPk : ∀ q : String × ℚ, (q.1 == t.id) = false → ∀ c : Conflict,
      (match teachers.find? (fun x => x.id == q.1) with
       | some tt =>
           if decide (tt.weeklyHourLimit < q.2) = true then
             some (mkTeacherOverload tt q.2 (entries.filter (fun e => e.teacherId == q.1)))
           else none
       | none => none) = some c →
      (c.type == "teacher_overload" &&
        c.affectedEntries.any (fun i =>
          ((entries.filter (fun e => e.teacherId == t.id)).map
            TimetableEntry.id).contains i)) = false := by
    intro q hq c hg
    split at hg
    · split at hg
      · cases hg
        have haff : ∀ i ∈ ((entries.filter (fun e => e.teacherId == q.1)).map
            TimetableEntry.id),
            (((entries.filter (fun e => e.teacherId == t.id)).map
              TimetableEntry.id).contains i) = false := by
          intro i hi
          rw [List.mem_map] at hi
          obtain ⟨e', he', hid⟩ := hi
          rw [List.mem_filter] at he'
          by_contra hcon
          have hmem : i ∈ (entries.filter (fun e => e.teacherId == t.id)).map
              TimetableEntry.id := by
            have : ((entries.filter (fun e => e.teacherId == t.id)).map
                TimetableEntry.id).contains i = true := by
              cases hval : ((entries.filter (fun e => e.teacherId == t.id)).map
                  TimetableEntry.id).contains i
              · exact absurd hval hcon
              · rfl
            simpa using this
          rw [List.mem_map] at hmem
          obtain ⟨e, he, hide⟩ := hmem
          rw [List.mem_filter] at he
          have heq : e = e' := List.inj_on_of_nodup_map hnd he.1 he'.1 (by rw [hide, hid])
          have h1 : e'.teacherId = t.id := by rw [← heq]; simpa using he.2
          have h2 : e'.teacherId = q.1 := by simpa using he'.2
          rw [h1] at h2
          rw [← h2] at hq
          simp at hq
        have hany : ((entries.filter (fun e => e.teacherId == q.1)).map
            TimetableEntry.id).any (fun i =>
              ((entries.filter (fun e => e.teacherId == t.id)).map
                TimetableEntry.id).contains i) = false :=
          List.any_eq_false.mpr (fun i hi => by rw [haff i hi]; simp)
        show (("teacher_overload" == "teacher_overload") &&
          ((entries.filter (fun e => e.teacherId == q.1)).map TimetableEntry.id).any
            (fun i => ((entries.filter (fun e => e.teacherId == t.id)).map
              TimetableEntry.id).contains i)) = false
        rw [hany, Bool.and_false]
      · simp at hg
    · simp at hg
  have hkeys : ((teacherHoursMap dur entries).map Prod.fst).Nodup := by
    rw [teacherHoursMap]
    exact teacherHoursFold_keys_nodup dur entries [] (by simp)
  have hcount : (teacherHoursMap dur entries).countP (fun q => q.1 == t.id) ≤ 1 := by
    have h1 : (teacherHoursMap dur entries).countP (fun q => q.1 == t.id)
        = ((teacherHoursMap dur entries).map Prod.fst).countP (fun s => s == t.id) := by
      rw [List.countP_map]
      rfl
    rw [h1]
    have h2 := List.nodup_iff_count_le_one.mp hkeys t.id
    rw [List.count] at h2
    exact h2
  rw [filterMap_filter_unique _ _ (fun q => q.1 == t.id) hPk
    (teacherHoursMap dur entries) hcount]
  rw [teacherHoursMap, teacherHoursFold_find dur t.id entries []]
  simp only [List.find?_nil]
  cases hany : entries.any (fun e => e.teacherId == t.id)
  · have hfil : entries.filter (fun e => e.teacherId == t.id) = [] := by
      refine List.filter_eq_nil_iff.mpr (fun e he => ?_)
      have h2 : ∀ x ∈ entries, ¬ x.teacherId = t.id := by simpa using hany
      simpa using h2 e he
    rw [hfil]
    simp [not_lt.mpr hlim]
  · simp only [if_true]
    dsimp only
    rw [ht]
    by_cases hlt : t.weeklyHourLimit <
        ((entries.filter (fun e => e.teacherId == t.id)).length : ℚ) * (dur / 60)
    · have hne : ∃ e ∈ entries, (e.teacherId == t.id) = true := by
        simpa using List.any_eq_true.mp hany
      obtain ⟨e0, he0, hpe0⟩ := hne
      have hmem : e0.id ∈ (entries.filter (fun e => e.teacherId == t.id)).map
          TimetableEntry.id :=
        List.mem_map_of_mem _ (List.mem_filter.mpr ⟨he0, hpe0⟩)
      have hanyaff : ((entries.filter (fun e => e.teacherId == t.id)).map
          TimetableEntry.id).any (fun i =>
            ((entries.filter (fun e => e.teacherId == t.id)).map
              TimetableEntry.id).contains i) = true := by
        refine List.any_eq_true.mpr ⟨e0.id, hmem, ?_⟩
        simpa using hmem
      have hPc : ((mkTeacherOverload t
          (((entries.filter (fun e => e.teacherId == t.id)).length : ℚ) * (dur / 60))
          (entries.filter (fun e => e.teacherId == t.id))).type == "teacher_overload" &&
            (mkTeacherOverload t
              (((entries.filter (fun e => e.teacherId == t.id)).length : ℚ) * (dur / 60))
              (entries.filter (fun e => e.teacherId == t.id))).affectedEntries.any
              (fun i =>
                ((entries.filter (fun e => e.teacherId == t.id)).map
                  TimetableEntry.id).contains i)) = true := by
        show (("teacher_overload" == "teacher_overload") &&
          ((entries.filter (fun e => e.teacherId == t.id)).map TimetableEntry.id).any
            (fun i =>
              ((entries.filter (fun e => e.teacherId == t.id)).map
                TimetableEntry.id).contains i)) = true
        rw [hanyaff]
        rfl
      rw [if_pos hlt]
      show ((if decide (t.weeklyHourLimit <
            ((entries.filter (fun e => e.teacherId == t.id)).length : ℚ) * (dur / 60)) = true then
          some (mkTeacherOverload t
            (((entries.filter (fun e => e.teacherId == t.id)).length : ℚ) * (dur / 60))
            (entries.filter (fun e => e.teacherId == t.id)))
        else none).toList).filter (fun c =>
          c.type == "teacher_overload" &&
            c.affectedEntries.any (fun i =>
              ((entries.filter (fun e => e.teacherId == t.id)).map
                TimetableEntry.id).contains i))
        = [mkTeacherOverload t
            (((entries.filter (fun e => e.teacherId == t.id)).length : ℚ) * (dur / 60))
            (entries.filter (fun e => e.teacherId == t.id))]
      rw [decide_eq_true hlt]
      show List.filter (fun c =>
          c.type == "teacher_overload" &&
            c.affectedEntries.any (fun i =>
              ((entries.filter (fun e => e.teacherId == t.id)).map
                TimetableEntry.id).contains i))
          [mkTeacherOverload t
            (((entries.filter (fun e => e.teacherId == t.id)).length : ℚ) * (dur / 60))
            (entries.filter (fun e => e.teacherId == t.id))]
        = [mkTeacherOverload t
            (((entries.filter (fun e => e.teacherId == t.id)).length : ℚ) * (dur / 60))
            (entries.filter (fun e => e.teacherId == t.id))]
      rw [List.filter_cons, if_pos hPc]
      rfl
    · rw [if_neg hlt]
      show ((if decide (t.weeklyHourLimit <
            ((entries.filter (fun e => e.teacherId == t.id)).length : ℚ) * (dur / 60)) = true then
          some (mkTeacherOverload t
            (((entries.filter (fun e => e.teacherId == t.id)).length : ℚ) * (dur / 60))
            (entries.filter (fun e => e.teacherId == t.id)))
        else none).toList).filter (fun c =>
          c.type == "teacher_overload" &&
            c.affectedEntries.any (fun i =>
              ((entries.filter (fun e => e.teacherId == t.id)).map
                TimetableEntry.id).contains i))
        = []
      rw [decide_eq_false hlt]
      rfl

/-- Witness for C3: the spec's overload scenario — a teacher with a 20-hour
limit and thirty 45-minute entries (22.5 hours) gets exactly one
teacher_overload warning listing all 30 entry ids. -/
theorem validateConstraints_overload_unique_witness :
    [sampleTeacher].find? (fun x => x.id == sampleTeacher.id) = some sampleTeacher ∧
    (overloadEntries.map TimetableEntry.id).Nodup ∧
    (validateConstraints [sampleTeacher] [] 45 overloadEntries).filter
        (fun c => c.type == "teacher_overload" &&
          c.affectedEntries.any (fun i =>
            ((overloadEntries.filter (fun e => e.teacherId == sampleTeacher.id)).map
              TimetableEntry.id).contains i))
      = (if sampleTeacher.weeklyHourLimit <
            ((overloadEntries.filter (fun e =>
              e.teacherId == sampleTeacher.id)).length : ℚ) * (45 / 60) then
          [mkTeacherOverload sampleTeacher
            (((overloadEntries.filter (fun e =>
              e.teacherId == sampleTeacher.id)).length : ℚ) * (45 / 60))
            (overloadEntries.filter (fun e => e.teacherId == sampleTeacher.id))]
        else []) :=
  ⟨by decide, by decide,
    validateConstraints_overload_unique [sampleTeacher] [] 45 overloadEntries sampleTeacher
      (by decide) (by decide) (by decide)⟩

/-- Counterexample for C9: reassigning an already-assigned (class, subject)
pair to a new teacher does not retain a deactivated copy of the old row —
the existing row is updated in place and stays active, and the table still
has a single, active row. -/
theorem addAssignment_reassign_in_place_cex :
    addAssignment [sampleBinding] "CL1" "S1" "T2" "99" "d1"
      = [{ id := "1", classId := "CL1", subjectId := "S1", teacherId := "T2",
           isActive := true, createdAt := "d0", updatedAt := "d1" }] ∧
    (addAssignment [sampleBinding] "CL1" "S1" "T2" "99" "d1").length = 1 ∧
    (addAssignment [sampleBinding] "CL1" "S1" "T2" "99" "d1").all
      (fun a => a.isActive) = true := by
  refine ⟨?_, ?_, ?_⟩ <;> decide

/-- The filter used by activeCount is preserved by the teacher-update map. -/
theorem activeCount_addAssignment_update (l : List ClassSubjectTeacher)
    (exId tch now : String) (c s : String) :
    activeCount (l.map (fun a =>
        if a.id == exId then { a with teacherId := tch, updatedAt := now } else a)) c s
      = activeCount l c s := by
  rw [activeCount, activeCount]
  induction l with
  | nil => rfl
  | cons a t ih =>
      rw [List.map_cons, List.filter_cons, List.filter_cons]
      by_cases ha : (a.id == exId) = true
      · by_cases hp : (a.isActive && a.classId == c && a.subjectId == s) = true <;>
          (simp [ha, hp] at ih ⊢; exact ih)
      · have ha' : (a.id == exId) = false := by simpa using ha
        by_cases hp : (a.isActive && a.classId == c && a.subjectId == s) = true <;>
          (simp [ha', hp] at ih ⊢; exact ih)

/-- Deactivating a row cannot increase any active count. -/
theorem activeCount_removeAssignment_le (l : List ClassSubjectTeacher)
    (rid now : String) (c s : String) :
    activeCount (removeAssignment l rid now) c s ≤ activeCount l c s := by
  rw [removeAssignment, activeCount, activeCount]
  induction l with
  | nil => exact Nat.le_refl 0
  | cons a t ih =>
      rw [List.map_cons, List.filter_cons, List.filter_cons]
      by_cases ha : (a.id == rid) = true
      · have h2 : (({ a with isActive := false, updatedAt := now } :
            ClassSubjectTeacher).isActive
            && ({ a with isActive := false, updatedAt := now } :
              ClassSubjectTeacher).classId == c
            && ({ a with isActive := false, updatedAt := now } :
              ClassSubjectTeacher).subjectId == s) = false := rfl
        by_cases hp : (a.isActive && a.classId == c && a.subjectId == s) = true
        · simp only [ha, if_true, h2]
          simp only [Bool.false_eq_true, if_false, hp, if_true]
          rw [List.length_cons]
          exact Nat.le_succ_of_le ih
        · have hp' : (a.isActive && a.classId == c && a.subjectId == s) = false := by
            simpa using hp
          simp [ha, h2, hp'] at ih ⊢
          exact ih
      · have ha' : (a.id == rid) = false := by simpa using ha
        by_cases hp : (a.isActive && a.classId == c && a.subjectId == s) = true
        · simp only [ha', Bool.false_eq_true, if_false, hp, if_true]
          rw [List.length_cons, List.length_cons]
          exact Nat.succ_le_succ ih
        · have hp' : (a.isActive && a.classId == c && a.subjectId == s) = false := by
            simpa using hp
          simp [ha', hp'] at ih ⊢
          exact ih


/-- Appending a fresh active row for a pair with no active row preserves
the invariant. -/
theorem activeCount_append_new (l : List ClassSubjectTeacher) (w : ClassSubjectTeacher)
    (hnone : l.find? (fun a =>
      a.classId == w.classId && a.subjectId == w.subjectId && a.isActive) = none)
    (h : AtMostOneActive l) : AtMostOneActive (l ++ [w]) := by
  intro c s
  rw [activeCount, List.filter_append, List.length_append]
  by_cases hnew : (w.isActive && w.classId == c && w.subjectId == s) = true
  · have hcs : w.classId = c ∧ w.subjectId = s := by
      simp only [Bool.and_eq_true, beq_iff_eq] at hnew
      exact ⟨hnew.1.2, hnew.2⟩
    obtain ⟨hc, hs⟩ := hcs
    have hnil : l.filter (fun a => a.isActive && a.classId == c && a.subjectId == s)
        = [] := by
      refine List.filter_eq_nil_iff.mpr (fun a ha => ?_)
      have h2 := List.find?_eq_none.mp hnone a ha
      intro hcontra
      apply h2
      simp only [Bool.and_eq_true] at hcontra ⊢
      rw [hc, hs]
      exact ⟨⟨hcontra.1.2, hcontra.2⟩, hcontra.1.1⟩
    rw [hnil]
    simp [List.filter_cons, hnew]
  · have hnew' : (w.isActive && w.classId == c && w.subjectId == s) = false := by
      simpa using hnew
    have hz : (([w]).filter
        (fun a => a.isActive && a.classId == c && a.subjectId == s)).length = 0 := by
      simp [List.filter_cons, hnew']
    rw [hz]
    have h2 := h c s
    rw [activeCount] at h2
    omega

/-- addAssignment preserves the one-active-row-per-pair invariant. -/
theorem addAssignment_invariant (l : List ClassSubjectTeacher)
    (sc ss st ni nn : String) (h : AtMostOneActive l) :
    AtMostOneActive (addAssignment l sc ss st ni nn) := by
  intro c s
  rw [addAssignment]
  by_cases hguard : (sc == "" || ss == "" || st == "") = true
  · rw [if_pos hguard]
    exact h c s
  · rw [if_neg hguard]
    rcases hfind : l.find? (fun a => a.classId == sc && a.subjectId == ss && a.isActive)
      with _ | ex
    · rw [hfind]
      exact activeCount_append_new l
        { id := ni, classId := sc, subjectId := ss, teacherId := st, isActive := true,
          createdAt := nn, updatedAt := nn } hfind h c s
    · rw [hfind]
      show activeCount (l.map (fun a => if a.id == ex.id then
          { a with teacherId := st, updatedAt := nn } else a)) c s ≤ 1
      exact le_of_eq_of_le (activeCount_addAssignment_update l ex.id st nn c s) (h c s)

/-- removeAssignment preserves the one-active-row-per-pair invariant. -/
theorem removeAssignment_invariant (l : List ClassSubjectTeacher)
    (rid nn : String) (h : AtMostOneActive l) :
    AtMostOneActive (removeAssignment l rid nn) := fun c s =>
  le_trans (activeCount_removeAssignment_le l rid nn c s) (h c s)

/-- C9 (amended): every sequence of add/remove operations preserves the
at-most-one-active-row invariant; reassigning an already-bound (class,
subject) pair keeps the table size and, when the inputs are nonempty,
keeps the updated row active with the new teacher while adding no
deactivated copy (given distinct row ids); and removeAssignment
soft-deletes: the table size is kept and the targeted row survives with
isActive set to false. -/
theorem teacherAssignments_invariant_spec
    (init : List ClassSubjectTeacher) (ops : List TeacherAssignOp)
    (hinv : AtMostOneActive init) :
    AtMostOneActive (applyOps init ops) ∧
    (∀ (l : List ClassSubjectTeacher) (c s t i n : String) (ex : ClassSubjectTeacher),
      (l.map ClassSubjectTeacher.id).Nodup →
      l.find? (fun a => a.classId == c && a.subjectId == s && a.isActive) = some ex →
      (addAssignment l c s t i n).length = l.length ∧
      ((c == "" || s == "" || t == "") = false →
        { ex with teacherId := t, updatedAt := n } ∈ addAssignment l c s t i n ∧
        ∀ a ∈ addAssignment l c s t i n, a.isActive = false → a ∈ l)) ∧
    (∀ (l : List ClassSubjectTeacher) (i n : String),
      (removeAssignment l i n).length = l.length ∧
      ∀ a ∈ l, a.id = i →
        ({ a with isActive := false, updatedAt := n } ∈ removeAssignment l i n)) := by
  refine ⟨?_, ?_, ?_⟩
  · induction ops generalizing init with
    | nil => exact hinv
    | cons op rest ih =>
        rw [applyOps, List.foldl_cons]
        rcases op with ⟨c, s, t, i, n⟩ | ⟨i, n⟩
        · exact ih (addAssignment init c s t i n) (addAssignment_invariant init c s t i n hinv)
        · exact ih (removeAssignment init i n) (removeAssignment_invariant init i n hinv)
  · intro l c s t i n ex hids hfind
    have hmem : ex ∈ l := List.mem_of_find?_eq_some hfind
    constructor
    · rw [addAssignment]
      by_cases hguard : (c == "" || s == "" || t == "") = true
      · rw [if_pos hguard]
      · rw [if_neg hguard, hfind]
        show (l.map (fun a => if a.id == ex.id then
            { a with teacherId := t, updatedAt := n } else a)).length = l.length
        rw [List.length_map]
    · intro hguard
      have hg2 : ¬ (c == "" || s == "" || t == "") = true := by simp [hguard]
      constructor
      · rw [addAssignment, if_neg hg2, hfind]
        show ({ ex with teacherId := t, updatedAt := n } : ClassSubjectTeacher)
          ∈ l.map (fun a => if a.id == ex.id then
              { a with teacherId := t, updatedAt := n } else a)
        have heq2 : ({ ex with teacherId := t, updatedAt := n } : ClassSubjectTeacher)
            = (fun a => if a.id == ex.id then
                { a with teacherId := t, updatedAt := n } else a) ex := by
          simp
        rw [heq2]
        exact List.mem_map_of_mem _ hmem
      · intro a ha hact
        rw [addAssignment, if_neg hg2, hfind] at ha
        have ha2 : a ∈ l.map (fun b => if b.id == ex.id then
            { b with teacherId := t, updatedAt := n } else b) := ha
        rw [List.mem_map] at ha2
        obtain ⟨b, hb, hba⟩ := ha2
        by_cases hbid : (b.id == ex.id) = true
        · have hbe : b = ex := List.inj_on_of_nodup_map hids hb hmem (by simpa using hbid)
          rw [if_pos hbid] at hba
          have hexact : ex.isActive = true := by
            have h2 := List.find?_some hfind
            simp only [Bool.and_eq_true] at h2
            exact h2.2
          rw [← hba] at hact
          have hbact : b.isActive = false := hact
          rw [hbe, hexact] at hbact
          exact Bool.noConfusion hbact
        · rw [if_neg hbid] at hba
          rw [← hba]
          exact hb
  · intro l i n
    constructor
    · rw [removeAssignment, List.length_map]
    · intro a ha hid
      rw [removeAssignment]
      have heq2 : ({ a with isActive := false, updatedAt := n } : ClassSubjectTeacher)
          = (fun b => if b.id == i then { b with isActive := false, updatedAt := n }
              else b) a := by
        simp [hid]
      rw [heq2]
      exact List.mem_map_of_mem _ ha

/-- Witness for C9: a concrete reassign-then-remove sequence keeps the
invariant, and the reassignment keeps the table size. -/
theorem teacherAssignments_invariant_spec_witness :
    AtMostOneActive (applyOps [sampleBinding]
      [TeacherAssignOp.add "CL1" "S1" "T2" "99" "d1", TeacherAssignOp.remove "1" "d2"]) ∧
    (addAssignment [sampleBinding] "CL1" "S1" "T2" "99" "d1").length
      = [sampleBinding].length :=
  ⟨(teacherAssignments_invariant_spec [sampleBinding]
      [TeacherAssignOp.add "CL1" "S1" "T2" "99" "d1", TeacherAssignOp.remove "1" "d2"]
      (fun _ _ => le_trans (List.length_filter_le _ _) (by decide))).1,
    ((teacherAssignments_invariant_spec [sampleBinding] []
      (fun _ _ => le_trans (List.length_filter_le _ _) (by decide))).2.1 [sampleBinding]
      "CL1" "S1" "T2" "99" "d1" sampleBinding (by decide) (by decide)).1⟩

/-- Counterexample for C8: the occupancy check of saveManualAssignment also
matches the entry's own existing assignment, so re-assigning the same room
to the same entry fails with RoomOccupied although no other entry's
assignment occupies the room. -/
theorem saveManualAssignment_self_occupied_cex :
    saveManualAssignment [mkSampleEntry "E1"]
        [mkManualAssignment "d0" (mkSampleEntry "E1") "R1"]
        (some (mkSampleEntry "E1")) "R1" "d1"
      = .error .roomOccupied ∧
    (∀ ra ∈ [mkManualAssignment "d0" (mkSampleEntry "E1") "R1"],
      ra.timetableEntryId = (mkSampleEntry "E1").id) :=
  ⟨by rfl, by decide⟩

/-- C8 (amended): saveManualAssignment fails with RoomOccupied exactly when
any assignment — the entry's own included — occupies the selected room at
the entry's slot (resolved through the entries list); on failure the
assignment set is left unchanged (no new set is produced), and otherwise it
replaces the entry's prior assignment with a single new manual one, so the
entry ends with exactly one assignment. -/
theorem saveManualAssignment_spec
    (entries : List TimetableEntry) (assigns : List RoomAssignment) (e : TimetableEntry)
    (roomSel now : String) (hr : (roomSel == "") = false) :
    (assigns.any (occupiesSlot entries roomSel e) = true →
      saveManualAssignment entries assigns (some e) roomSel now
        = .error .roomOccupied) ∧
    (assigns.any (occupiesSlot entries roomSel e) = false →
      saveManualAssignment entries assigns (some e) roomSel now
        = .ok ((assigns.filter (fun ra => !(ra.timetableEntryId == e.id))) ++
            [mkManualAssignment now e roomSel]) ∧
      ((assigns.filter (fun ra => !(ra.timetableEntryId == e.id))) ++
          [mkManualAssignment now e roomSel]).filter
          (fun ra => ra.timetableEntryId == e.id)
        = [mkManualAssignment now e roomSel]) := by
  constructor
  · intro hocc
    show (if (roomSel == "") = true then Except.error ManualAssignError.noSelection
      else if assigns.any (occupiesSlot entries roomSel e) = true then
        Except.error ManualAssignError.roomOccupied
      else Except.ok ((assigns.filter (fun ra => !(ra.timetableEntryId == e.id))) ++
        [mkManualAssignment now e roomSel]))
      = Except.error ManualAssignError.roomOccupied
    rw [if_neg (by simp [hr]), if_pos hocc]
  · intro hocc
    refine ⟨?_, ?_⟩
    · show (if (roomSel == "") = true then Except.error ManualAssignError.noSelection
        else if assigns.any (occupiesSlot entries roomSel e) = true then
          Except.error ManualAssignError.roomOccupied
        else Except.ok ((assigns.filter (fun ra => !(ra.timetableEntryId == e.id))) ++
          [mkManualAssignment now e roomSel]))
        = Except.ok ((assigns.filter (fun ra => !(ra.timetableEntryId == e.id))) ++
          [mkManualAssignment now e roomSel])
      rw [if_neg (by simp [hr]), if_neg (by simp [hocc])]
    · rw [List.filter_append]
      have h1 : (assigns.filter (fun ra => !(ra.timetableEntryId == e.id))).filter
          (fun ra => ra.timetableEntryId == e.id) = [] := by
        refine List.filter_eq_nil_iff.mpr (fun ra hra => ?_)
        rw [List.mem_filter] at hra
        intro hcontra
        rw [hcontra] at hra
        simpa using hra.2
      rw [h1, List.nil_append]
      have h2 : ((mkManualAssignment now e roomSel).timetableEntryId == e.id) = true := by
        simp [mkManualAssignment]
      simp [List.filter_cons, h2]

/-- Witness for C8: assigning room R1 to an entry with no existing
assignments succeeds and leaves the entry with exactly that assignment. -/
theorem saveManualAssignment_spec_witness :
    (([] : List RoomAssignment).any
        (occupiesSlot [mkSampleEntry "E1"] "R1" (mkSampleEntry "E1")) = true →
      saveManualAssignment [mkSampleEntry "E1"] [] (some (mkSampleEntry "E1")) "R1" "d1"
        = .error .roomOccupied) ∧
    (([] : List RoomAssignment).any
        (occupiesSlot [mkSampleEntry "E1"] "R1" (mkSampleEntry "E1")) = false →
      saveManualAssignment [mkSampleEntry "E1"] [] (some (mkSampleEntry "E1")) "R1" "d1"
        = .ok ((([] : List RoomAssignment).filter
            (fun ra => !(ra.timetableEntryId == (mkSampleEntry "E1").id))) ++
            [mkManualAssignment "d1" (mkSampleEntry "E1") "R1"]) ∧
      ((([] : List RoomAssignment).filter
          (fun ra => !(ra.timetableEntryId == (mkSampleEntry "E1").id))) ++
          [mkManualAssignment "d1" (mkSampleEntry "E1") "R1"]).filter
          (fun ra => ra.timetableEntryId == (mkSampleEntry "E1").id)
        = [mkManualAssignment "d1" (mkSampleEntry "E1") "R1"]) :=
  saveManualAssignment_spec [mkSampleEntry "E1"] [] (mkSampleEntry "E1") "R1" "d1"
    (by decide)

/-- Any assignment created by the auto-assign step is for the stepped
entry. -/
theorem autoAssignStep_id (st : RoomEngineState) (entries : List TimetableEntry)
    (assigns : List RoomAssignment) (now : String) (e : TimetableEntry)
    (ra : RoomAssignment) :
    autoAssignStep st entries assigns now e = some ra → ra.timetableEntryId = e.id := by
  intro h
  rw [autoAssignStep] at h
  split at h
  · simp at h
  · split at h
    · split at h
      · cases h; rfl
      · simp at h
    · simp at h

/-- C10: autoAssignRooms never modifies or removes an existing assignment —
the result extends the input set, every input assignment is present
unchanged, and every genuinely new assignment belongs to an entry that had
no assignment before the call. -/
theorem autoAssignRooms_frame
    (st : RoomEngineState) (entries : List TimetableEntry) (assigns : List RoomAssignment)
    (now : String) :
    (∃ created, autoAssignRooms st entries assigns now = assigns ++ created) ∧
    (∀ ra ∈ assigns, ra ∈ autoAssignRooms st entries assigns now) ∧
    (∀ ra ∈ autoAssignRooms st entries assigns now, ra ∉ assigns →
      ∀ ra' ∈ assigns, ra'.timetableEntryId ≠ ra.timetableEntryId) := by
  refine ⟨⟨entries.filterMap (autoAssignStep st entries assigns now), rfl⟩, ?_, ?_⟩
  · intro ra hra
    rw [autoAssignRooms]
    exact List.mem_append_left _ hra
  · intro ra hra hnot ra' hra'
    rw [autoAssignRooms, List.mem_append] at hra
    rcases hra with h | h
    · exact absurd h hnot
    · rw [List.mem_filterMap] at h
      obtain ⟨e, _, hstep⟩ := h
      have hid := autoAssignStep_id st entries assigns now e ra hstep
      have hskip : assigns.any (fun x => x.timetableEntryId == e.id) = false := by
        rw [autoAssignStep] at hstep
        by_cases hb : assigns.any (fun x => x.timetableEntryId == e.id) = true
        · rw [if_pos hb] at hstep
          simp at hstep
        · simpa using hb
      intro hcontra
      have hmm : (ra'.timetableEntryId == e.id) = true := by
        rw [hcontra, hid]
        simp
      have := List.any_eq_false.mp hskip ra' hra'
      exact this hmm

/-- Witness for C10: an existing assignment survives an auto-assign pass. -/
theorem autoAssignRooms_frame_witness :
    mkManualAssignment "d0" (mkSampleEntry "E1") "R1"
      ∈ autoAssignRooms sampleEngineState [mkSampleEntry "E1"]
        [mkManualAssignment "d0" (mkSampleEntry "E1") "R1"] "t0" :=
  (autoAssignRooms_frame sampleEngineState [mkSampleEntry "E1"]
    [mkManualAssignment "d0" (mkSampleEntry "E1") "R1"] "t0").2.1 _ (by decide)

/-- Counterexample for C1: two unassigned entries at the same (day, period)
with a single active room both receive an assignment to that room — the
code computes occupancy only against the pre-call assignment state, so the
exhaustion scenario (k rooms yield exactly k assignments) fails. -/
theorem autoAssignRooms_exhaustion_cex :
    (autoAssignRooms sampleEngineState [mkSampleEntry "E1", mkSampleEntry "E2"]
        [] "t0").length = 2 ∧
    ((autoAssignRooms sampleEngineState [mkSampleEntry "E1", mkSampleEntry "E2"]
        [] "t0").filter (fun ra => ra.roomId == "R1")).length = 2 ∧
    (sampleEngineState.classrooms.filter (fun r => r.isActive)).length = 1 := by
  refine ⟨?_, ?_, ?_⟩ <;> decide

/-- C1 (amended): autoAssignRooms computes occupancy and the skip test only
against the assignments existing before the call, so newly created
assignments do not exclude rooms for later entries; every entry without a
pre-existing assignment whose top-scored candidate (against the pre-call
state) has a positive score receives exactly one new assignment, to that
candidate's room, with isAutoAssigned = true, assignedBy = "system", and
conflictStatus = "warning" when the candidate had warnings, else "none". -/
theorem autoAssignRooms_per_entry_assignment
    (st : RoomEngineState) (entries : List TimetableEntry) (assigns : List RoomAssignment)
    (now : String) (entry : TimetableEntry) (best : RoomSuggestion)
    (hnd : (entries.map TimetableEntry.id).Nodup)
    (hmem : entry ∈ entries)
    (hun : ∀ ra ∈ assigns, ra.timetableEntryId ≠ entry.id)
    (hbest : (generateRoomSuggestions st assigns entries entry).head? = some best)
    (hpos : 0 < best.suitabilityScore) :
    (autoAssignRooms st entries assigns now).filter
        (fun ra => ra.timetableEntryId == entry.id)
      = [mkAutoAssignment now entry best] := by
  rw [autoAssignRooms, List.filter_append]
  have h1 : assigns.filter (fun ra => ra.timetableEntryId == entry.id) = [] := by
    refine List.filter_eq_nil_iff.mpr (fun ra hra => ?_)
    simpa using hun ra hra
  rw [h1, List.nil_append]
  have hstep : autoAssignStep st entries assigns now entry
      = some (mkAutoAssignment now entry best) := by
    have hskip : (assigns.any (fun ra => ra.timetableEntryId == entry.id)) = false := by
      refine List.any_eq_false.mpr (fun ra hra => ?_)
      simpa using hun ra hra
    rw [autoAssignStep, hskip]
    show (match (generateRoomSuggestions st assigns entries entry).head? with
      | some b =>
          if 0 < b.suitabilityScore then some (mkAutoAssignment now entry b) else none
      | none => none) = some (mkAutoAssignment now entry best)
    rw [hbest]
    show (if 0 < best.suitabilityScore then some (mkAutoAssignment now entry best)
      else none) = some (mkAutoAssignment now entry best)
    rw [if_pos hpos]
  have hgen : ∀ l : List TimetableEntry, entry ∈ l →
      ((l.map TimetableEntry.id).Nodup) →
      (l.filterMap (autoAssignStep st entries assigns now)).filter
        (fun ra => ra.timetableEntryId == entry.id) = [mkAutoAssignment now entry best] := by
    intro l
    induction l with
    | nil => intro hm _; simp at hm
    | cons e r ih =>
        intro hm hndl
        rw [List.map_cons, List.nodup_cons] at hndl
        by_cases hee : e = entry
        · subst hee
          rw [List.filterMap_cons_some hstep, List.filter_cons]
          have hmk : ((mkAutoAssignment now e best).timetableEntryId == e.id) = true := by
            simp [mkAutoAssignment]
          rw [if_pos hmk]
          have hrest : (r.filterMap (autoAssignStep st entries assigns now)).filter
              (fun ra => ra.timetableEntryId == e.id) = [] := by
            refine List.filter_eq_nil_iff.mpr (fun ra hra => ?_)
            rw [List.mem_filterMap] at hra
            obtain ⟨e', he', hse⟩ := hra
            have hid := autoAssignStep_id st entries assigns now e' ra hse
            intro hcontra
            have hide : e'.id = e.id := by
              rw [← hid]
              simpa using hcontra
            exact hndl.1 (hide ▸ List.mem_map_of_mem TimetableEntry.id he')
          rw [hrest]
        · have hmr : entry ∈ r := by
            rcases List.mem_cons.mp hm with h | h
            · exact absurd h.symm hee
            · exact h
          have hne : e.id ≠ entry.id := by
            intro hcontra
            exact hndl.1 (hcontra ▸ List.mem_map_of_mem TimetableEntry.id hmr)
          rcases hs : autoAssignStep st entries assigns now e with _ | ra
          · rw [List.filterMap_cons_none hs]
            exact ih hmr hndl.2
          · rw [List.filterMap_cons_some hs, List.filter_cons]
            have hid := autoAssignStep_id st entries assigns now e ra hs
            have hpr : (ra.timetableEntryId == entry.id) = false := by
              rw [hid]
              simpa using hne
            rw [if_neg (by simp [hpr])]
            exact ih hmr hndl.2
  exact hgen entries hmem hnd

/-- Witness for C1 (amended): one unassigned entry with one active,
positively-scored room receives exactly its auto assignment. -/
theorem autoAssignRooms_per_entry_assignment_witness :
    ([mkSampleEntry "E1"].map TimetableEntry.id).Nodup ∧
    (autoAssignRooms sampleEngineState [mkSampleEntry "E1"] [] "t0").filter
        (fun ra => ra.timetableEntryId == (mkSampleEntry "E1").id)
      = [mkAutoAssignment "t0" (mkSampleEntry "E1")
          (scoreRoom [] sampleClass sampleRoomSmall)] :=
  ⟨by decide,
    autoAssignRooms_per_entry_assignment sampleEngineState [mkSampleEntry "E1"] [] "t0"
      (mkSampleEntry "E1") (scoreRoom [] sampleClass sampleRoomSmall)
      (by decide) (by decide) (by intro ra hra; simp at hra) (by decide) (by decide)⟩

/-- The spec's rational capacity comparisons agree with the integer
comparisons used in the scorer, under the capacity-branch structure (for a
zero-capacity room the guard forces a zero student count, where both
readings give the +5 branch, matching the JS NaN comparisons). -/
theorem specCapacityScore_eq_code (cls : ClassSection) (room : Classroom) :
    specCapacityScore cls room
      = if cls.studentCount ≤ room.capacity then
          (if 4 * room.capacity < 5 * cls.studentCount then 15
           else if room.capacity < 2 * cls.studentCount then 10 else 5)
        else -50 := by
  rw [specCapacityScore]
  by_cases hcap : cls.studentCount ≤ room.capacity
  · rw [if_pos hcap, if_pos hcap]
    rcases Nat.eq_zero_or_pos room.capacity with h0 | hpos
    · have hsc : cls.studentCount = 0 := Nat.le_zero.mp (h0 ▸ hcap)
      rw [h0, hsc]
      norm_num
    · have hq : (0 : ℚ) < (room.capacity : ℚ) := by exact_mod_cast hpos
      have h08 : ((4 : ℚ) / 5 < (cls.studentCount : ℚ) / (room.capacity : ℚ))
          ↔ 4 * room.capacity < 5 * cls.studentCount := by
        rw [div_lt_div_iff₀ (by norm_num : (0 : ℚ) < 5) hq]
        constructor
        · intro h
          have h2 : ((4 * room.capacity : ℕ) : ℚ) < ((5 * cls.studentCount : ℕ) : ℚ) := by
            push_cast
            linarith
          exact_mod_cast h2
        · intro h
          have h2 : ((4 * room.capacity : ℕ) : ℚ) < ((5 * cls.studentCount : ℕ) : ℚ) := by
            exact_mod_cast h
          push_cast at h2
          linarith
      have h05 : ((1 : ℚ) / 2 < (cls.studentCount : ℚ) / (room.capacity : ℚ))
          ↔ room.capacity < 2 * cls.studentCount := by
        rw [div_lt_div_iff₀ (by norm_num : (0 : ℚ) < 2) hq]
        constructor
        · intro h
          have h2 : ((1 * room.capacity : ℕ) : ℚ) < ((2 * cls.studentCount : ℕ) : ℚ) := by
            push_cast
            linarith
          have h3 : 1 * room.capacity < 2 * cls.studentCount := by exact_mod_cast h2
          omega
        · intro h
          have h2 : ((1 * room.capacity : ℕ) : ℚ) < ((2 * cls.studentCount : ℕ) : ℚ) := by
            exact_mod_cast (by omega : 1 * room.capacity < 2 * cls.studentCount)
          push_cast at h2
          linarith
      by_cases hP1 : (4 : ℚ) / 5 < (cls.studentCount : ℚ) / (room.capacity : ℚ)
      · rw [if_pos (decide_eq_true hP1), if_pos (h08.mp hP1)]
      · rw [if_neg (fun hcontra => hP1 (of_decide_eq_true hcontra)),
          if_neg (fun hcontra => hP1 (h08.mpr hcontra))]
        by_cases hP2 : (1 : ℚ) / 2 < (cls.studentCount : ℚ) / (room.capacity : ℚ)
        · rw [if_pos (decide_eq_true hP2), if_pos (h05.mp hP2)]
        · rw [if_neg (fun hcontra => hP2 (of_decide_eq_true hcontra)),
            if_neg (fun hcontra => hP2 (h05.mpr hcontra))]
  · rw [if_neg hcap, if_neg hcap]

/-- The scorer's clamped score equals the spec's formula. -/
theorem scoreRoom_score_spec (prefs : List SubjectRoomType) (cls : ClassSection)
    (room : Classroom) :
    (scoreRoom prefs cls room).suitabilityScore = specSuitability prefs cls room := by
  rw [specSuitability, specCapacityScore_eq_code, scoreRoom, specTypeScore, specFeatureScore]
  have hfeat : (room.features.contains "Projector" && room.features.contains "Whiteboard")
      = ["Projector", "Whiteboard"].all (fun f => room.features.contains f) := by
    simp [List.all_cons]
  rw [hfeat]
  rcases hfind : prefs.find? (fun srt => srt.roomTypeId == room.roomTypeId) with _ | p <;>
    · rw [hfind]
      dsimp only
      split_ifs <;> omega

/-- C4: for an entry whose subject and class resolve, every candidate room
(active, not occupied at the entry's slot) is scored by the spec formula
with the final score clamped below at zero, and the returned list is the
scored candidates sorted by descending suitability with ties kept in
candidate order (stable sort, expressed as score-class filters being
preserved). -/
theorem generateRoomSuggestions_scored_sorted_stable
    (st : RoomEngineState) (assigns : List RoomAssignment) (entries : List TimetableEntry)
    (entry : TimetableEntry) (subj : Subject) (cls : ClassSection)
    (hs : st.subjects.find? (fun s => s.id == entry.subjectId) = some subj)
    (hc : st.classSections.find? (fun c => c.id == entry.classId) = some cls) :
    (∀ room ∈ availableRooms st assigns entries entry,
      (scoreRoom (sortedPrefs st entry) cls room).suitabilityScore
        = specSuitability (sortedPrefs st entry) cls room) ∧
    List.Pairwise sugOrder (generateRoomSuggestions st assigns entries entry) ∧
    (∀ v : Int,
      (generateRoomSuggestions st assigns entries entry).filter
          (fun x => x.suitabilityScore == v)
        = ((availableRooms st assigns entries entry).map
            (scoreRoom (sortedPrefs st entry) cls)).filter
            (fun x => x.suitabilityScore == v)) := by
  have hout : generateRoomSuggestions st assigns entries entry
      = List.insertionSort sugOrder
          ((availableRooms st assigns entries entry).map
            (scoreRoom (sortedPrefs st entry) cls)) := by
    rw [generateRoomSuggestions, hs, hc]
  refine ⟨fun room _ => scoreRoom_score_spec _ _ _, ?_, ?_⟩
  · rw [hout]
    exact List.sorted_insertionSort sugOrder _
  · intro v
    rw [hout]
    refine filter_insertionSort sugOrder (fun x => x.suitabilityScore == v)
      (fun a b hpa hnr => ?_) _
    have ha : a.suitabilityScore = v := by simpa using hpa
    have hb : a.suitabilityScore < b.suitabilityScore := not_le.mp hnr
    have hne : b.suitabilityScore ≠ v := by omega
    simpa using hne

/-- Witness for C4: the sample entry against two active rooms. -/
theorem generateRoomSuggestions_scored_sorted_stable_witness :
    sampleEngineStateTwoRooms.subjects.find?
        (fun s => s.id == (mkSampleEntry "E1").subjectId) = some sampleSubject ∧
    sampleEngineStateTwoRooms.classSections.find?
        (fun c => c.id == (mkSampleEntry "E1").classId) = some sampleClass ∧
    ((∀ room ∈ availableRooms sampleEngineStateTwoRooms [] [mkSampleEntry "E1"]
        (mkSampleEntry "E1"),
      (scoreRoom (sortedPrefs sampleEngineStateTwoRooms (mkSampleEntry "E1"))
          sampleClass room).suitabilityScore
        = specSuitability (sortedPrefs sampleEngineStateTwoRooms (mkSampleEntry "E1"))
            sampleClass room) ∧
    List.Pairwise sugOrder (generateRoomSuggestions sampleEngineStateTwoRooms []
      [mkSampleEntry "E1"] (mkSampleEntry "E1")) ∧
    (∀ v : Int,
      (generateRoomSuggestions sampleEngineStateTwoRooms [] [mkSampleEntry "E1"]
          (mkSampleEntry "E1")).filter (fun x => x.suitabilityScore == v)
        = ((availableRooms sampleEngineStateTwoRooms [] [mkSampleEntry "E1"]
            (mkSampleEntry "E1")).map
            (scoreRoom (sortedPrefs sampleEngineStateTwoRooms (mkSampleEntry "E1"))
              sampleClass)).filter (fun x => x.suitabilityScore == v))) :=
  ⟨by decide, by decide,
    generateRoomSuggestions_scored_sorted_stable sampleEngineStateTwoRooms []
      [mkSampleEntry "E1"] (mkSampleEntry "E1") sampleSubject sampleClass
      (by decide) (by decide)⟩

/-- Counterexample for C5: a room that is too large gets +5 (a positive
contribution) yet a warning, and the missing-features rule contributes 0
yet also appends a warning; the candidate ends with a positive score, no
reasons, and two warnings although no rule subtracted from its score. -/
theorem scoreRoom_warning_from_nonnegative_rule_cex :
    (scoreRoom [] sampleClass sampleRoomLarge).suitabilityScore = 5 ∧
    (scoreRoom [] sampleClass sampleRoomLarge).reasons = [] ∧
    (scoreRoom [] sampleClass sampleRoomLarge).warnings
      = ["Room may be too large", "Missing some required features"] := by
  refine ⟨?_, ?_, ?_⟩ <;> decide

/-- C5 (amended): the reasons and warnings lists are exactly the per-rule
strings given by specReasons and specWarnings — every rule that subtracts
from the score (non-preferred room type, insufficient capacity) appends a
warning, but a warning can also come from the too-large-room rule (which
adds +5) and the missing-features rule (which contributes 0); positive
contributions otherwise land in the reasons list. -/
theorem scoreRoom_reasons_warnings_spec (prefs : List SubjectRoomType) (cls : ClassSection)
    (room : Classroom) :
    (scoreRoom prefs cls room).reasons = specReasons prefs cls room ∧
    (scoreRoom prefs cls room).warnings = specWarnings prefs cls room ∧
    (prefs.find? (fun srt => srt.roomTypeId == room.roomTypeId) = none → 0 < prefs.length →
      "Not a preferred room type for this subject" ∈ (scoreRoom prefs cls room).warnings) ∧
    (room.capacity < cls.studentCount →
      ("Insufficient capacity (" ++ toString room.capacity ++ " < " ++
        toString cls.studentCount ++ ")") ∈ (scoreRoom prefs cls room).warnings) ∧
    (cls.studentCount ≤ room.capacity → ¬ 4 * room.capacity < 5 * cls.studentCount →
      ¬ room.capacity < 2 * cls.studentCount →
      "Room may be too large" ∈ (scoreRoom prefs cls room).warnings) ∧
    (¬ (["Projector", "Whiteboard"].all (fun f => room.features.contains f)) = true →
      "Missing some required features" ∈ (scoreRoom prefs cls room).warnings) := by
  have hreasons : (scoreRoom prefs cls room).reasons = specReasons prefs cls room := by
    rw [scoreRoom, specReasons]
    rcases hfind : prefs.find? (fun srt => srt.roomTypeId == room.roomTypeId) with _ | p <;>
      · rw [hfind]
        dsimp only
        split_ifs <;> simp
  have hwarnings : (scoreRoom prefs cls room).warnings = specWarnings prefs cls room := by
    rw [scoreRoom, specWarnings]
    rcases hfind : prefs.find? (fun srt => srt.roomTypeId == room.roomTypeId) with _ | p <;>
      · rw [hfind]
        dsimp only
        split_ifs <;> simp
  refine ⟨hreasons, hwarnings, ?_, ?_, ?_, ?_⟩
  · intro hfind hlen
    rw [hwarnings, specWarnings, hfind]
    simp only [List.mem_append]
    left; left
    simp [hlen]
  · intro hcap
    rw [hwarnings, specWarnings]
    simp only [List.mem_append]
    left; right
    rw [if_neg (by omega)]
    exact List.mem_singleton.mpr rfl
  · intro hcap h08 h05
    rw [hwarnings, specWarnings]
    simp only [List.mem_append]
    left; right
    rw [if_pos hcap, if_neg h08, if_neg h05]
    exact List.mem_singleton.mpr rfl
  · intro hfeat2
    rw [hwarnings, specWarnings]
    simp only [List.mem_append]
    right
    rw [if_neg hfeat2]
    exact List.mem_singleton.mpr rfl

/-- Witness for C5 (amended): the characterization applied to the too-large
sample room. -/
theorem scoreRoom_reasons_warnings_spec_witness :
    (scoreRoom [] sampleClass sampleRoomLarge).reasons
      = specReasons [] sampleClass sampleRoomLarge ∧
    (scoreRoom [] sampleClass sampleRoomLarge).warnings
      = specWarnings [] sampleClass sampleRoomLarge ∧
    (([] : List SubjectRoomType).find?
        (fun srt => srt.roomTypeId == sampleRoomLarge.roomTypeId) = none →
      0 < ([] : List SubjectRoomType).length →
      "Not a preferred room type for this subject"
        ∈ (scoreRoom [] sampleClass sampleRoomLarge).warnings) ∧
    (sampleRoomLarge.capacity < sampleClass.studentCount →
      ("Insufficient capacity (" ++ toString sampleRoomLarge.capacity ++ " < " ++
        toString sampleClass.studentCount ++ ")")
        ∈ (scoreRoom [] sampleClass sampleRoomLarge).warnings) ∧
    (sampleClass.studentCount ≤ sampleRoomLarge.capacity →
      ¬ 4 * sampleRoomLarge.capacity < 5 * sampleClass.studentCount →
      ¬ sampleRoomLarge.capacity < 2 * sampleClass.studentCount →
      "Room may be too large" ∈ (scoreRoom [] sampleClass sampleRoomLarge).warnings) ∧
    (¬ (["Projector", "Whiteboard"].all
        (fun f => sampleRoomLarge.features.contains f)) = true →
      "Missing some required features"
        ∈ (scoreRoom [] sampleClass sampleRoomLarge).warnings) :=
  scoreRoom_reasons_warnings_spec [] sampleClass sampleRoomLarge

/-- A filterMap with an exclusion guard is a filter of the mapped list. -/
theorem filterMap_guard_eq_filter_map {α β : Type} (f : α → Bool) (g : α → β)
    (p : β → Bool) (hpg : ∀ a, p (g a) = !(f a)) (l : List α) :
    l.filterMap (fun a => if f a then none else some (g a)) = (l.map g).filter p := by
  induction l with
  | nil => rfl
  | cons a t ih =>
      cases hf : f a <;>
        simp [List.filterMap_cons, List.filter_cons, hf, hpg, ih]

/-- C6: once the selected subject's progress reaches 100 percent (in
particular whenever scheduled hours reach the positive required total),
validSlots is empty regardless of occupancy; below 100 percent it is
exactly the set of grid cells at which the selected entity has no entry. -/
theorem validSlots_progress_spec
    (ctx : GridContext) (alloc : List GradeSubjectAllocation)
    (assigns : List ClassSubjectTeacher) (mode : ViewMode) (entity : String)
    (entries : List TimetableEntry) (dur : ℚ) (sid : String) (pr : Progress)
    (hpr : subjectProgress ctx alloc assigns mode entity entries dur sid = some pr) :
    (100 ≤ pr.percentage →
      validSlots ctx alloc assigns mode entity entries dur (some sid) = []) ∧
    (0 < pr.total → pr.total ≤ pr.scheduled →
      validSlots ctx alloc assigns mode entity entries dur (some sid) = []) ∧
    (pr.percentage < 100 →
      validSlots ctx alloc assigns mode entity entries dur (some sid)
        = (DAYS.flatMap (fun d => PERIODS.map (fun p => (d, p)))).filter
            (fun s => !(isOccupiedSlot mode entity entries s.1 s.2))) := by
  have hv : validSlots ctx alloc assigns mode entity entries dur (some sid)
      = if 100 ≤ pr.percentage then []
        else DAYS.flatMap (fun day => PERIODS.filterMap (fun period =>
          if isOccupiedSlot mode entity entries day period then none
          else some (day, period))) := by
    show (match subjectProgress ctx alloc assigns mode entity entries dur sid with
      | none => ([] : List (String × Nat))
      | some pr' =>
          if 100 ≤ pr'.percentage then []
          else DAYS.flatMap (fun day => PERIODS.filterMap (fun period =>
            if isOccupiedSlot mode entity entries day period then none
            else some (day, period))))
      = if 100 ≤ pr.percentage then []
        else DAYS.flatMap (fun day => PERIODS.filterMap (fun period =>
          if isOccupiedSlot mode entity entries day period then none
          else some (day, period)))
    rw [hpr]
  have hpf : pr = progressFor ctx alloc assigns mode entity entries dur sid := by
    rw [subjectProgress] at hpr
    by_cases hav : (availableSubjects ctx alloc mode entity).any (fun s => s.id == sid) = true
    · rw [if_pos hav] at hpr
      exact (Option.some.inj hpr).symm
    · rw [if_neg hav] at hpr
      exact absurd hpr (by simp)
  refine ⟨fun h100 => by rw [hv, if_pos h100], ?_, ?_⟩
  · intro hpos hle
    have hT : 0 < totalHoursFor ctx alloc assigns mode entity sid := by
      rw [hpf] at hpos
      exact hpos
    have hle' : totalHoursFor ctx alloc assigns mode entity sid
        ≤ ((scheduledEntriesFor mode entity sid entries).length : ℚ) * (dur / 60) := by
      rw [hpf] at hle
      exact hle
    have h100 : 100 ≤ pr.percentage := by
      rw [hpf]
      show (100 : Int) ≤ (if 0 < totalHoursFor ctx alloc assigns mode entity sid then
        jsRound (((scheduledEntriesFor mode entity sid entries).length : ℚ) * (dur / 60)
          / totalHoursFor ctx alloc assigns mode entity sid * 100) else 0)
      rw [if_pos hT]
      have h1 : (1 : ℚ) ≤ ((scheduledEntriesFor mode entity sid entries).length : ℚ)
          * (dur / 60) / totalHoursFor ctx alloc assigns mode entity sid :=
        (one_le_div hT).mpr hle'
      rw [jsRound, Int.le_floor]
      push_cast
      linarith
    rw [hv, if_pos h100]
  · intro hlt
    rw [hv, if_neg (not_le.mpr hlt)]
    have hdays : ∀ ds : List String,
        ds.flatMap (fun day => PERIODS.filterMap (fun period =>
          if isOccupiedSlot mode entity entries day period then none
          else some (day, period)))
        = (ds.flatMap (fun d => PERIODS.map (fun p => (d, p)))).filter
            (fun s => !(isOccupiedSlot mode entity entries s.1 s.2)) := by
      intro ds
      induction ds with
      | nil => rfl
      | cons d t ih =>
          rw [List.flatMap_cons, List.flatMap_cons, List.filter_append, ih]
          congr 1
          exact filterMap_guard_eq_filter_map
            (fun period => isOccupiedSlot mode entity entries d period)
            (fun p => (d, p))
            (fun s => !(isOccupiedSlot mode entity entries s.1 s.2))
            (fun _ => rfl) PERIODS
    exact hdays DAYS

/-- Witness for C6: the sample class with nothing scheduled — progress is
below 100 percent and the whole empty grid is offered. -/
theorem validSlots_progress_spec_witness :
    subjectProgress sampleGridContext [sampleAllocation] [sampleBinding]
      ViewMode.classView "CL1" [] 45 "S1"
      = some (progressFor sampleGridContext [sampleAllocation] [sampleBinding]
          ViewMode.classView "CL1" [] 45 "S1") ∧
    ((100 ≤ (progressFor sampleGridContext [sampleAllocation] [sampleBinding]
        ViewMode.classView "CL1" [] 45 "S1").percentage →
      validSlots sampleGridContext [sampleAllocation] [sampleBinding] ViewMode.classView
        "CL1" [] 45 (some "S1") = []) ∧
    (0 < (progressFor sampleGridContext [sampleAllocation] [sampleBinding]
        ViewMode.classView "CL1" [] 45 "S1").total →
      (progressFor sampleGridContext [sampleAllocation] [sampleBinding]
        ViewMode.classView "CL1" [] 45 "S1").total
        ≤ (progressFor sampleGridContext [sampleAllocation] [sampleBinding]
            ViewMode.classView "CL1" [] 45 "S1").scheduled →
      validSlots sampleGridContext [sampleAllocation] [sampleBinding] ViewMode.classView
        "CL1" [] 45 (some "S1") = []) ∧
    ((progressFor sampleGridContext [sampleAllocation] [sampleBinding]
        ViewMode.classView "CL1" [] 45 "S1").percentage < 100 →
      validSlots sampleGridContext [sampleAllocation] [sampleBinding] ViewMode.classView
        "CL1" [] 45 (some "S1")
        = (DAYS.flatMap (fun d => PERIODS.map (fun p => (d, p)))).filter
            (fun s => !(isOccupiedSlot ViewMode.classView "CL1" [] s.1 s.2)))) :=
  ⟨rfl, validSlots_progress_spec sampleGridContext [sampleAllocation] [sampleBinding]
    ViewMode.classView "CL1" [] 45 "S1"
    (progressFor sampleGridContext [sampleAllocation] [sampleBinding]
      ViewMode.classView "CL1" [] 45 "S1") rfl⟩

/-- C7: with a subject selected, a nonempty entity, the fully-scheduled
guard not firing and every binding row carrying a nonempty teacher id, the
slot click fails with noTeacherAssigned — entry list unchanged — exactly
when the view is class mode and no active binding exists for the
(entity, subject) pair; when a teacher resolves, exactly the new entry is
appended, and its fields carry the fresh id, resolved teacher, subject,
the id of the TimeSlot matching (day, period), the denormalized day and
period, and the class id in class mode. -/
theorem handleSlotClick_spec
    (mode : ViewMode) (assigns : List ClassSubjectTeacher) (timeSlots : List TimeSlot)
    (progressLookup : String → Option Progress) (entries : List TimetableEntry)
    (sid entity newId day : String) (period : Nat)
    (hent : (entity == "") = false)
    (hprog : ∀ pr, progressLookup sid = some pr → pr.percentage < 100)
    (hrows : ∀ a ∈ assigns, a.teacherId ≠ "") :
    (handleSlotClick mode assigns timeSlots progressLookup entries (some sid) entity
        newId day period = (SlotClickResult.noTeacherAssigned, entries)
      ↔ mode = ViewMode.classView ∧
        ¬ ∃ a ∈ assigns, a.classId = entity ∧ a.subjectId = sid ∧ a.isActive = true) ∧
    (resolveTeacherId mode assigns entity sid ≠ "" →
      handleSlotClick mode assigns timeSlots progressLookup entries (some sid) entity
          newId day period
        = (SlotClickResult.added (mkNewEntry mode timeSlots newId sid entity
            (resolveTeacherId mode assigns entity sid) day period),
          entries ++ [mkNewEntry mode timeSlots newId sid entity
            (resolveTeacherId mode assigns entity sid) day period])) ∧
    (∀ ts, timeSlots.find? (fun x => x.day == day && x.period == period) = some ts →
      ∀ t, (mkNewEntry mode timeSlots newId sid entity t day period).timeSlotId = ts.id
        ∧ (mkNewEntry mode timeSlots newId sid entity t day period).day = day
        ∧ (mkNewEntry mode timeSlots newId sid entity t day period).period = period
        ∧ (mkNewEntry mode timeSlots newId sid entity t day period).id = newId
        ∧ (mkNewEntry mode timeSlots newId sid entity t day period).teacherId = t
        ∧ (mkNewEntry mode timeSlots newId sid entity t day period).subjectId = sid
        ∧ (mkNewEntry mode timeSlots newId sid entity t day period).classId
            = (match mode with
               | ViewMode.classView => entity
               | ViewMode.teacherView => "")) := by
  have hguard : (match progressLookup sid with
      | some pr => decide (100 ≤ pr.percentage)
      | none => false) = false := by
    cases hp : progressLookup sid with
    | none => rfl
    | some pr => exact decide_eq_false (not_le.mpr (hprog pr hp))
  have hv : handleSlotClick mode assigns timeSlots progressLookup entries (some sid)
      entity newId day period
      = if (resolveTeacherId mode assigns entity sid == "") = true
          then (SlotClickResult.noTeacherAssigned, entries)
          else (SlotClickResult.added (mkNewEntry mode timeSlots newId sid entity
              (resolveTeacherId mode assigns entity sid) day period),
            entries ++ [mkNewEntry mode timeSlots newId sid entity
              (resolveTeacherId mode assigns entity sid) day period]) := by
    show (if (entity == "") = true then (SlotClickResult.noSelection, entries)
      else if (match progressLookup sid with
          | some pr => decide (100 ≤ pr.percentage)
          | none => false) = true then (SlotClickResult.fullyScheduled, entries)
      else if (resolveTeacherId mode assigns entity sid == "") = true
          then (SlotClickResult.noTeacherAssigned, entries)
          else (SlotClickResult.added (mkNewEntry mode timeSlots newId sid entity
              (resolveTeacherId mode assigns entity sid) day period),
            entries ++ [mkNewEntry mode timeSlots newId sid entity
              (resolveTeacherId mode assigns entity sid) day period]))
      = if (resolveTeacherId mode assigns entity sid == "") = true
          then (SlotClickResult.noTeacherAssigned, entries)
          else (SlotClickResult.added (mkNewEntry mode timeSlots newId sid entity
              (resolveTeacherId mode assigns entity sid) day period),
            entries ++ [mkNewEntry mode timeSlots newId sid entity
              (resolveTeacherId mode assigns entity sid) day period])
    rw [if_neg (by simp [hent]), if_neg (by simp [hguard])]
  refine ⟨⟨?_, ?_⟩, ?_, ?_⟩
  · intro h1
    by_cases htid : (resolveTeacherId mode assigns entity sid == "") = true
    · cases mode with
      | teacherView =>
          have h2 : (entity == "") = true := htid
          rw [hent] at h2
          exact absurd h2 (by decide)
      | classView =>
          refine ⟨rfl, ?_⟩
          rintro ⟨a, ha, hc, hs2, hact⟩
          cases hf : assigns.find? (fun a =>
              a.classId == entity && a.subjectId == sid && a.isActive) with
          | none =>
              have hnone := List.find?_eq_none.mp hf a ha
              simp [hc, hs2, hact] at hnone
          | some b =>
              have hb := List.mem_of_find?_eq_some hf
              have h6 : resolveTeacherId ViewMode.classView assigns entity sid
                  = b.teacherId := by
                show ((assigns.find? (fun a => a.classId == entity &&
                    a.subjectId == sid && a.isActive)).map (fun a => a.teacherId)).getD ""
                  = b.teacherId
                rw [hf]
                rfl
              rw [h6] at htid
              exact hrows b hb (by simpa using htid)
    · rw [hv, if_neg htid] at h1
      simp at h1
  · rintro ⟨hmode, hnex⟩
    subst hmode
    have htid : resolveTeacherId ViewMode.classView assigns entity sid = "" := by
      cases hf : assigns.find? (fun a =>
          a.classId == entity && a.subjectId == sid && a.isActive) with
      | none =>
          show ((assigns.find? (fun a => a.classId == entity &&
              a.subjectId == sid && a.isActive)).map (fun a => a.teacherId)).getD "" = ""
          rw [hf]
          rfl
      | some b =>
          exfalso
          apply hnex
          have hmem := List.mem_of_find?_eq_some hf
          have hpb := List.find?_some hf
          simp only [Bool.and_eq_true, beq_iff_eq] at hpb
          exact ⟨b, hmem, hpb.1.1, hpb.1.2, hpb.2⟩
    rw [hv, if_pos (by simp [htid])]
  · intro htid
    rw [hv, if_neg (fun hc => htid (by simpa using hc))]
  · intro ts hfind t
    refine ⟨?_, rfl, rfl, rfl, rfl, rfl, ?_⟩
    · show ((timeSlots.find? (fun x => x.day == day && x.period == period)).map
          (fun x => x.id)).getD "" = ts.id
      rw [hfind]
      rfl
    · cases mode <;> rfl

/-- Witness for C7: class view with one active binding (CL1, S1, T1),
one time slot Monday period 1, empty progress lookup. -/
theorem handleSlotClick_spec_witness :
    ((("CL1" : String) == "") = false) ∧
    (∀ pr : Progress, (fun _ : String => (none : Option Progress)) "S1" = some pr →
      pr.percentage < 100) ∧
    (∀ a ∈ [sampleBinding], a.teacherId ≠ "") ∧
    ((handleSlotClick ViewMode.classView [sampleBinding] [sampleTimeSlot]
        (fun _ => none) [] (some "S1") "CL1" "N1" "Monday" 1
        = (SlotClickResult.noTeacherAssigned, [])
      ↔ ViewMode.classView = ViewMode.classView ∧
        ¬ ∃ a ∈ [sampleBinding], a.classId = "CL1" ∧ a.subjectId = "S1" ∧
          a.isActive = true) ∧
    (resolveTeacherId ViewMode.classView [sampleBinding] "CL1" "S1" ≠ "" →
      handleSlotClick ViewMode.classView [sampleBinding] [sampleTimeSlot]
          (fun _ => none) [] (some "S1") "CL1" "N1" "Monday" 1
        = (SlotClickResult.added (mkNewEntry ViewMode.classView [sampleTimeSlot] "N1"
            "S1" "CL1" (resolveTeacherId ViewMode.classView [sampleBinding] "CL1" "S1")
            "Monday" 1),
          [] ++ [mkNewEntry ViewMode.classView [sampleTimeSlot] "N1" "S1" "CL1"
            (resolveTeacherId ViewMode.classView [sampleBinding] "CL1" "S1")
            "Monday" 1])) ∧
    (∀ ts, [sampleTimeSlot].find? (fun x => x.day == "Monday" && x.period == 1)
        = some ts →
      ∀ t, (mkNewEntry ViewMode.classView [sampleTimeSlot] "N1" "S1" "CL1" t
            "Monday" 1).timeSlotId = ts.id
        ∧ (mkNewEntry ViewMode.classView [sampleTimeSlot] "N1" "S1" "CL1" t
            "Monday" 1).day = "Monday"
        ∧ (mkNewEntry ViewMode.classView [sampleTimeSlot] "N1" "S1" "CL1" t
            "Monday" 1).period = 1
        ∧ (mkNewEntry ViewMode.classView [sampleTimeSlot] "N1" "S1" "CL1" t
            "Monday" 1).id = "N1"
        ∧ (mkNewEntry ViewMode.classView [sampleTimeSlot] "N1" "S1" "CL1" t
            "Monday" 1).teacherId = t
        ∧ (mkNewEntry ViewMode.classView [sampleTimeSlot] "N1" "S1" "CL1" t
            "Monday" 1).subjectId = "S1"
        ∧ (mkNewEntry ViewMode.classView [sampleTimeSlot] "N1" "S1" "CL1" t
            "Monday" 1).classId
            = (match ViewMode.classView with
               | ViewMode.classView => "CL1"
               | ViewMode.teacherView => ""))) :=
  ⟨by decide, fun pr h => Option.noConfusion h, by decide,
    handleSlotClick_spec ViewMode.classView [sampleBinding] [sampleTimeSlot]
      (fun _ => none) [] "S1" "CL1" "N1" "Monday" 1
      (by decide) (fun pr h => Option.noConfusion h) (by decide)⟩
